import Mathlib

/-!
# GameEngine of the GMA iOS test application

A shallow embedding of `gma/tools/ios/testapp/testapp/game_engine.cpp`.

Conventions of the embedding:

* The numeric code (layout, hit test, animation) is embedded twice. Namespace `Binary32`
  follows the machine: `float` / `GLfloat` values are IEEE 754 binary32, every operation
  rounds to nearest even, and the `double` subexpression of the layout loop is binary64.
  Namespace `GameEngine` is the same code over exact rationals (`ℚ`); it carries the
  dispatcher and listener properties, where the arithmetic plays no part, and the
  centre-tap property.
* The constants `kNumberOfButtons`, `kTestBannerView` and `kTestInterstitialAd` are
  declared in `game_engine.h`; they are parameters.
* `vertices_` (a C array of `kNumberOfButtons * 8` floats) is a total map from the
  array index to the stored value.
* The ad SDK is an external collaborator: what the engine reads from it is an input
  (`SdkPoll`), what the engine asks of it is an output (a list of `SdkCall`).
  Ad objects are identified by the number the allocator gave them; dereferencing a
  pointer that holds no object makes the call fail (`none`).
-/

/-! ## Data model -/

/-- Identity of an ad object (one `new` gives one identity). -/
abbrev ObjId := Nat

/-- The `firebase::gma::AdParent` handed to `Initialize`; its content is never inspected. -/
abbrev AdParent := Nat

/-- Constants of `game_engine.h`. -/
structure Config where
  kNumberOfButtons : Nat
  kTestBannerView : Bool
  kTestInterstitialAd : Bool
  deriving DecidableEq, Repr

/-! ## The ad SDK as seen from the engine -/

/-- Modelled from the spec: `firebase::FutureStatus` is declared in the SDK headers, which
are not part of the sources; §6 names the values pending and complete, any other value is
`kFutureStatusOther`. -/
inductive FutureStatus where
  | kFutureStatusComplete
  | kFutureStatusPending
  | kFutureStatusOther (code : Nat)
  deriving DecidableEq, Repr

/-- Modelled from the spec: the error code of a result (`firebase::gma::AdError`, declared
in the SDK headers): none or some code. -/
inductive AdError where
  | kAdErrorNone
  | kAdErrorOther (code : Nat)
  deriving DecidableEq, Repr

/-- What `XxxLastResult()` exposes: `Status()` and `Error()`. -/
structure Future where
  Status : FutureStatus
  Error : AdError
  deriving DecidableEq, Repr

/-- Modelled from the spec: `BannerView::PresentationState` (SDK header); the two values
named in `game_engine.cpp` and a catch-all. -/
inductive BannerPresentationState where
  | kPresentationStateHidden
  | kPresentationStateVisibleWithAd
  | kPresentationStateOther (code : Nat)
  deriving DecidableEq, Repr

/-- Modelled from the spec: `InterstitialAd::PresentationState` (SDK header); the value
named in `game_engine.cpp` and a catch-all. -/
inductive InterstitialPresentationState where
  | kPresentationStateHidden
  | kPresentationStateOther (code : Nat)
  deriving DecidableEq, Repr

/-- What the engine can read from a `BannerView` at one moment. -/
structure BannerPoll where
  InitializeLastResult : Future
  LoadAdLastResult : Future
  GetPresentationState : BannerPresentationState
  deriving DecidableEq, Repr

/-- What the engine can read from an `InterstitialAd` at one moment. -/
structure InterstitialPoll where
  InitializeLastResult : Future
  LoadAdLastResult : Future
  ShowLastResult : Future
  GetPresentationState : InterstitialPresentationState
  deriving DecidableEq, Repr

/-- The readings of every ad object during one call of the engine. -/
structure SdkPoll where
  banner : ObjId → BannerPoll
  interstitial : ObjId → InterstitialPoll

/-- The `firebase::gma::AdRequest` fields that `createRequest` fills in (the counts are the
lengths of the lists). -/
structure AdRequest where
  gender : String
  tagged_for_child_directed_treatment : String
  birthday_day : Int
  birthday_month : Int
  birthday_year : Int
  keywords : List String
  extras : List (String × String)
  test_device_ids : List String
  deriving DecidableEq, Repr

/-- A request the engine makes of the SDK. -/
inductive SdkCall where
  | gmaInitialize (app_id : String)
  | newBannerView (o : ObjId)
  | bannerInitialize (o : ObjId) (parent : AdParent) (ad_unit : String) (width height : Int)
  | bannerSetListener (o : ObjId)
  | bannerLoadAd (o : ObjId) (request : AdRequest)
  | bannerShow (o : ObjId)
  | bannerHide (o : ObjId)
  | bannerMoveToPosition (o : ObjId) (position : String)
  | bannerMoveToXY (o : ObjId) (x y : Int)
  | newInterstitialAd (o : ObjId)
  | interstitialInitialize (o : ObjId) (parent : AdParent) (ad_unit : String)
  | interstitialSetListener (o : ObjId)
  | interstitialLoadAd (o : ObjId) (request : AdRequest)
  | interstitialShow (o : ObjId)
  | deleteInterstitialAd (o : ObjId)
  deriving DecidableEq, Repr

/-- The fields of `GameEngine` that `game_engine.cpp` reads or writes (the GL handles apart). -/
structure GameEngine where
  parent_view_ : AdParent
  banner_view_ : Option ObjId
  interstitial_ad_ : Option ObjId
  banner_view_listener_set_ : Bool
  interstitial_ad_listener_set_ : Bool
  bg_intensity_ : ℚ
  bg_intensity_increasing_ : Bool
  width_ : Int
  height_ : Int
  vertices_ : Nat → ℚ

namespace GameEngine

/-! ## Layout: `onSurfaceChanged` -/

/-- The eight stores of one iteration of the loop of `onSurfaceChanged` (`base = i * 8`). -/
def writeButton (vertices : Nat → ℚ) (i : Nat) (currentHeight heightIncrement : ℚ) : Nat → ℚ :=
  let base := i * 8
  let v0 := Function.update vertices base (-0.9)
  let v1 := Function.update v0 (base + 1) currentHeight
  let v2 := Function.update v1 (base + 2) 0.9
  let v3 := Function.update v2 (base + 3) currentHeight
  let v4 := Function.update v3 (base + 4) (-0.9)
  let v5 := Function.update v4 (base + 5) (currentHeight - heightIncrement)
  let v6 := Function.update v5 (base + 6) 0.9
  Function.update v6 (base + 7) (currentHeight - heightIncrement)

/-- The loop `for (int i = ...; i < kNumberOfButtons; i++)` of `onSurfaceChanged`, with
`remaining` iterations to go, the next one at index `i`. -/
def layoutLoop (heightIncrement : ℚ) : (remaining : Nat) → (i : Nat) → (Nat → ℚ) → ℚ → (Nat → ℚ)
  | 0, _, vertices, _ => vertices
  | remaining + 1, i, vertices, currentHeight =>
      layoutLoop heightIncrement remaining (i + 1)
        (writeButton vertices i currentHeight heightIncrement)
        (currentHeight - 1.2 * heightIncrement)

/-- `GameEngine::onSurfaceChanged(int width, int height)`. -/
def onSurfaceChanged (cfg : Config) (g : GameEngine) (width height : Int) : GameEngine :=
  let heightIncrement : ℚ := 0.25
  let currentHeight : ℚ := 0.93
  { g with
    width_ := width
    height_ := height
    vertices_ := layoutLoop heightIncrement cfg.kNumberOfButtons 0 g.vertices_ currentHeight }

/-! ## Hit test: the first half of `onTap` -/

/-- `viewport_x` of `onTap`. -/
def viewport_x (g : GameEngine) (x : ℚ) : ℚ :=
  1 - ((((g.width_ : ℚ) - x) * 2) / (g.width_ : ℚ))

/-- `viewport_y` of `onTap`. -/
def viewport_y (g : GameEngine) (y : ℚ) : ℚ :=
  1 - ((y * 2) / (g.height_ : ℚ))

/-- The condition of the `if` in the scanning loop of `onTap`, for button `i`. -/
def inButton (vertices : Nat → ℚ) (i : Nat) (vx vy : ℚ) : Prop :=
  vx ≥ vertices (i * 8) ∧ vx ≤ vertices (i * 8 + 2) ∧
    vy ≤ vertices (i * 8 + 1) ∧ vy ≥ vertices (i * 8 + 5)

instance (vertices : Nat → ℚ) (i : Nat) (vx vy : ℚ) : Decidable (inButton vertices i vx vy) := by
  unfold inButton; infer_instance

/-- The scanning loop of `onTap` with `remaining` iterations to go, the next one at
index `i`; `button_number` is `-1` when the loop ends without a `break`. -/
def scanLoop (vertices : Nat → ℚ) (vx vy : ℚ) : (remaining : Nat) → (i : Nat) → Int
  | 0, _ => -1
  | remaining + 1, i =>
      if inButton vertices i vx vy then (i : Int)
      else scanLoop vertices vx vy remaining (i + 1)

/-- The value of `button_number` when `onTap(x, y)` reaches its `switch`. -/
def hitTest (cfg : Config) (g : GameEngine) (x y : ℚ) : Int :=
  scanLoop g.vertices_ (viewport_x g x) (viewport_y g y) cfg.kNumberOfButtons 0

/-! ## Animation: the last lines of `onUpdate` -/

/-- The background intensity update of `onUpdate` (from `float diff = ...` to the end). -/
def updateIntensity (g : GameEngine) : GameEngine :=
  let diff : ℚ := if g.bg_intensity_increasing_ then 0.0025 else -0.0025
  let g1 := { g with bg_intensity_ := g.bg_intensity_ + diff }
  if g1.bg_intensity_ ≥ 0.4 then
    { g1 with bg_intensity_increasing_ := false }
  else if g1.bg_intensity_ ≤ 0.0 then
    { g1 with bg_intensity_increasing_ := true }
  else g1

end GameEngine

/-! ## The engine and the SDK -/

/-- The engine together with the allocator: `fresh` is the identity the next `new` gives. -/
structure World where
  engine : GameEngine
  fresh : ObjId

/-- AdMob app ID. -/
def kAdMobAppID : String := "ca-app-pub-3940256099942544~1458002511"

/-- AdMob banner ad unit ID. -/
def kBannerAdUnit : String := "ca-app-pub-3940256099942544/2934735716"

/-- AdMob interstitial ad unit ID. -/
def kInterstitialAdUnit : String := "ca-app-pub-3940256099942544/4411468910"

/-- The test `Status() == kFutureStatusComplete && Error() == kAdErrorNone`. -/
def Future.completeNoError (f : Future) : Prop :=
  f.Status = FutureStatus.kFutureStatusComplete ∧ f.Error = AdError.kAdErrorNone

instance (f : Future) : Decidable f.completeNoError := by
  unfold Future.completeNoError; infer_instance

namespace GameEngine

/-- `GameEngine::Initialize(firebase::gma::AdParent ad_parent)`. -/
def Initialize (cfg : Config) (ad_parent : AdParent) (w : World) : World × List SdkCall :=
  let g0 := { w.engine with parent_view_ := ad_parent }
  let t0 := [SdkCall.gmaInitialize kAdMobAppID]
  let r1 : World × List SdkCall :=
    if cfg.kTestBannerView then
      let o := w.fresh
      ({ engine := { g0 with banner_view_ := some o, banner_view_listener_set_ := false },
         fresh := o + 1 },
       t0 ++ [SdkCall.newBannerView o,
              SdkCall.bannerInitialize o g0.parent_view_ kBannerAdUnit 320 50])
    else ({ engine := g0, fresh := w.fresh }, t0)
  if cfg.kTestInterstitialAd then
    let o := r1.1.fresh
    ({ engine := { r1.1.engine with interstitial_ad_ := some o,
                                    interstitial_ad_listener_set_ := false },
       fresh := o + 1 },
     r1.2 ++ [SdkCall.newInterstitialAd o,
              SdkCall.interstitialInitialize o r1.1.engine.parent_view_ kInterstitialAdUnit])
  else r1

/-- `GameEngine::createRequest()`. -/
def createRequest : AdRequest :=
  { gender := "kGenderUnknown"
    tagged_for_child_directed_treatment := "kChildDirectedTreatmentStateTagged"
    birthday_day := 10
    birthday_month := 11
    birthday_year := 1976
    keywords := ["GMA", "C++", "Fun"]
    extras := [("the_name_of_an_extra", "the_value_for_that_extra")]
    test_device_ids := ["2077ef9a63d2b398840261c8221a0c9b", "098fe087d987c9a878965454a65654d7"] }

/-- The block "Set the banner view listener" of `onUpdate`. -/
def setBannerListener (sdk : SdkPoll) (g : GameEngine) : Option (GameEngine × List SdkCall) :=
  match g.banner_view_ with
  | none => none
  | some b =>
      if (sdk.banner b).InitializeLastResult.Status = FutureStatus.kFutureStatusComplete ∧
          (sdk.banner b).InitializeLastResult.Error = AdError.kAdErrorNone ∧
          g.banner_view_listener_set_ = false then
        some ({ g with banner_view_listener_set_ := true }, [SdkCall.bannerSetListener b])
      else some (g, [])

/-- The block "Set the interstitial ad listener" of `onUpdate`. -/
def setInterstitialListener (sdk : SdkPoll) (g : GameEngine) :
    Option (GameEngine × List SdkCall) :=
  match g.interstitial_ad_ with
  | none => none
  | some a =>
      if (sdk.interstitial a).InitializeLastResult.Status = FutureStatus.kFutureStatusComplete ∧
          (sdk.interstitial a).InitializeLastResult.Error = AdError.kAdErrorNone ∧
          g.interstitial_ad_listener_set_ = false then
        some ({ g with interstitial_ad_listener_set_ := true },
              [SdkCall.interstitialSetListener a])
      else some (g, [])

/-- The block of `onUpdate` that creates a new interstitial ad once the current one has
been displayed and dismissed. -/
def recreateInterstitial (sdk : SdkPoll) (w : World) : Option (World × List SdkCall) :=
  match w.engine.interstitial_ad_ with
  | none => none
  | some a =>
      if (sdk.interstitial a).ShowLastResult.Status = FutureStatus.kFutureStatusComplete ∧
          (sdk.interstitial a).ShowLastResult.Error = AdError.kAdErrorNone ∧
          (sdk.interstitial a).GetPresentationState =
            InterstitialPresentationState.kPresentationStateHidden then
        let o := w.fresh
        some ({ engine := { w.engine with interstitial_ad_ := some o,
                                          interstitial_ad_listener_set_ := false },
                fresh := o + 1 },
              [SdkCall.deleteInterstitialAd a, SdkCall.newInterstitialAd o,
               SdkCall.interstitialInitialize o w.engine.parent_view_ kInterstitialAdUnit])
      else some (w, [])

/-- `GameEngine::onUpdate()`. -/
def onUpdate (cfg : Config) (sdk : SdkPoll) (w : World) : Option (World × List SdkCall) :=
  match (if cfg.kTestBannerView then setBannerListener sdk w.engine
         else some (w.engine, [])) with
  | none => none
  | some (g1, t1) =>
    match (if cfg.kTestInterstitialAd then setInterstitialListener sdk g1
           else some (g1, [])) with
    | none => none
    | some (g2, t2) =>
      match (if cfg.kTestInterstitialAd then
               recreateInterstitial sdk { engine := g2, fresh := w.fresh }
             else some ({ engine := g2, fresh := w.fresh }, [])) with
      | none => none
      | some (w3, t3) =>
        some ({ w3 with engine := updateIntensity w3.engine }, t1 ++ t2 ++ t3)

/-- The `switch (button_number)` of `onTap`. -/
def dispatch (cfg : Config) (sdk : SdkPoll) (g : GameEngine) (button_number : Int) :
    Option (GameEngine × List SdkCall) :=
  if button_number = 0 then
    if cfg.kTestBannerView then
      match g.banner_view_ with
      | none => none
      | some b =>
          if (sdk.banner b).InitializeLastResult.Status = FutureStatus.kFutureStatusComplete ∧
              (sdk.banner b).InitializeLastResult.Error = AdError.kAdErrorNone then
            some (g, [SdkCall.bannerLoadAd b createRequest])
          else some (g, [])
    else some (g, [])
  else if button_number = 1 then
    if cfg.kTestBannerView then
      match g.banner_view_ with
      | none => none
      | some b =>
          if (sdk.banner b).LoadAdLastResult.Status = FutureStatus.kFutureStatusComplete ∧
              (sdk.banner b).LoadAdLastResult.Error = AdError.kAdErrorNone ∧
              (sdk.banner b).GetPresentationState =
                BannerPresentationState.kPresentationStateHidden then
            some (g, [SdkCall.bannerShow b])
          else if (sdk.banner b).LoadAdLastResult.Status = FutureStatus.kFutureStatusComplete ∧
              (sdk.banner b).GetPresentationState =
                BannerPresentationState.kPresentationStateVisibleWithAd then
            some (g, [SdkCall.bannerHide b])
          else some (g, [])
    else some (g, [])
  else if button_number = 2 then
    if cfg.kTestBannerView then
      match g.banner_view_ with
      | none => none
      | some b =>
          if (sdk.banner b).LoadAdLastResult.Status = FutureStatus.kFutureStatusComplete ∧
              (sdk.banner b).LoadAdLastResult.Error = AdError.kAdErrorNone then
            some (g, [SdkCall.bannerMoveToPosition b "kPositionBottom"])
          else some (g, [])
    else some (g, [])
  else if button_number = 3 then
    if cfg.kTestBannerView then
      match g.banner_view_ with
      | none => none
      | some b =>
          if (sdk.banner b).LoadAdLastResult.Status = FutureStatus.kFutureStatusComplete ∧
              (sdk.banner b).LoadAdLastResult.Error = AdError.kAdErrorNone then
            let x : Int := 100
            let y : Int := 200
            some (g, [SdkCall.bannerMoveToXY b x y])
          else some (g, [])
    else some (g, [])
  else if button_number = 4 then
    if cfg.kTestInterstitialAd then
      match g.interstitial_ad_ with
      | none => none
      | some a =>
          if (sdk.interstitial a).InitializeLastResult.Status =
                FutureStatus.kFutureStatusComplete ∧
              (sdk.interstitial a).InitializeLastResult.Error = AdError.kAdErrorNone then
            some (g, [SdkCall.interstitialLoadAd a createRequest])
          else some (g, [])
    else some (g, [])
  else if button_number = 5 then
    if cfg.kTestInterstitialAd then
      match g.interstitial_ad_ with
      | none => none
      | some a =>
          if (sdk.interstitial a).LoadAdLastResult.Status = FutureStatus.kFutureStatusComplete ∧
              (sdk.interstitial a).LoadAdLastResult.Error = AdError.kAdErrorNone ∧
              (sdk.interstitial a).ShowLastResult.Status ≠
                FutureStatus.kFutureStatusComplete then
            some (g, [SdkCall.interstitialShow a])
          else some (g, [])
    else some (g, [])
  else some (g, [])

/-- `GameEngine::onTap(float x, float y)`: the hit test, then the `switch`. -/
def onTap (cfg : Config) (sdk : SdkPoll) (g : GameEngine) (x y : ℚ) :
    Option (GameEngine × List SdkCall) :=
  dispatch cfg sdk g (hitTest cfg g x y)

end GameEngine

/-! ## Sequences of calls -/

/-- One call of the host into the engine, with what the SDK reports during that call. -/
inductive Call where
  | Initialize (ad_parent : AdParent)
  | onUpdate (sdk : SdkPoll)
  | onTap (sdk : SdkPoll) (x y : ℚ)
  | onSurfaceChanged (width height : Int)

/-- The effect of one call on the engine and the requests it makes of the SDK. -/
def step (cfg : Config) (w : World) : Call → Option (World × List SdkCall)
  | Call.Initialize ad_parent => some (GameEngine.Initialize cfg ad_parent w)
  | Call.onUpdate sdk => GameEngine.onUpdate cfg sdk w
  | Call.onTap sdk x y =>
      match GameEngine.onTap cfg sdk w.engine x y with
      | none => none
      | some (g, t) => some ({ w with engine := g }, t)
  | Call.onSurfaceChanged width height =>
      some ({ w with engine := GameEngine.onSurfaceChanged cfg w.engine width height }, [])

/-- The calls of a sequence one after the other; every request is recorded with the call
that made it. -/
def run (cfg : Config) : World → List Call → Option (World × List (Call × SdkCall))
  | w, [] => some (w, [])
  | w, c :: cs =>
      match step cfg w c with
      | none => none
      | some (w1, t) =>
          match run cfg w1 cs with
          | none => none
          | some (w2, tr) => some (w2, t.map (fun k => (c, k)) ++ tr)

/-! ## Binary floating point

`float` and `GLfloat` are IEEE 754 binary32, `double` is binary64, every operation rounds
to nearest, ties to even. A value is a rational, an infinity or NaN. Zeros carry no sign: a
zero divisor is `+0`, which is what the conversion of an `int` gives. -/

/-- A binary format: `prec` significand bits, least significant bit never below `2 ^ emin`,
overflow from `2 ^ emax` on. -/
structure Format where
  prec : Nat
  emin : Int
  emax : Int
  deriving DecidableEq, Repr

/-- IEEE 754 binary32 (`float`, `GLfloat`). -/
def Format.binary32 : Format := { prec := 24, emin := -149, emax := 128 }

/-- IEEE 754 binary64 (`double`). -/
def Format.binary64 : Format := { prec := 53, emin := -1074, emax := 1024 }

/-- Number of binary digits of `n` (`fuel` bounds the recursion; `fuel = n` is enough). -/
def bitLength : Nat → Nat → Nat
  | 0, _ => 0
  | fuel + 1, n => if n = 0 then 0 else bitLength fuel (n / 2) + 1

/-- The exponent of the leading bit of `n / d`, that is `⌊log₂ (n / d)⌋`, for positive `n`
and `d`. -/
def floorLog2 (n d : Nat) : Int :=
  let k : Int := (bitLength n n : Int) - (bitLength d d : Int)
  if (if 0 ≤ k then d * 2 ^ k.toNat ≤ n else d ≤ n * 2 ^ (-k).toNat) then k else k - 1

/-- Rounding to the nearest integer, ties to even. -/
def rne (x : ℚ) : Int :=
  let f := ⌊x⌋
  let r := x - f
  if r < 1 / 2 then f else if 1 / 2 < r then f + 1 else if f % 2 = 0 then f else f + 1

/-- The exponent of the last place of a format at a nonzero `q`: `prec - 1` below the
leading bit of `q`, but not below `emin`. -/
def ulpExponent (fmt : Format) (q : ℚ) : Int :=
  max (floorLog2 q.num.natAbs q.den - ((fmt.prec : Int) - 1)) fmt.emin

/-- Rounding of a rational to the grid of a format, to nearest, ties to even (exponent
range unbounded above). -/
def roundTo (fmt : Format) (q : ℚ) : ℚ :=
  if q = 0 then 0 else
    (rne (q / (2 : ℚ) ^ ulpExponent fmt q) : ℚ) * (2 : ℚ) ^ ulpExponent fmt q

/-- A floating-point value. -/
inductive Fp where
  | finite (q : ℚ)
  | inf (negative : Bool)
  | nan
  deriving DecidableEq, Repr

namespace Fp

/-- The value of a format nearest to `q`; an infinity when that overflows. -/
def round (fmt : Format) (q : ℚ) : Fp :=
  let r := roundTo fmt q
  if (2 : ℚ) ^ fmt.emax ≤ |r| then inf (decide (r < 0)) else finite r

/-- Unary minus. -/
def neg : Fp → Fp
  | finite a => finite (-a)
  | inf s => inf (!s)
  | nan => nan

/-- Addition `a + b` in a format. -/
def add (fmt : Format) : Fp → Fp → Fp
  | finite a, finite b => round fmt (a + b)
  | finite _, inf s => inf s
  | inf s, finite _ => inf s
  | inf s, inf t => if s = t then inf s else nan
  | _, _ => nan

/-- Subtraction `a - b` in a format. -/
def sub (fmt : Format) (a b : Fp) : Fp := add fmt a (neg b)

/-- Multiplication `a * b` in a format. -/
def mul (fmt : Format) : Fp → Fp → Fp
  | finite a, finite b => round fmt (a * b)
  | finite a, inf s => if a = 0 then nan else inf (xor s (decide (a < 0)))
  | inf s, finite b => if b = 0 then nan else inf (xor s (decide (b < 0)))
  | inf s, inf t => inf (xor s t)
  | _, _ => nan

/-- Division `a / b` in a format. -/
def div (fmt : Format) : Fp → Fp → Fp
  | finite a, finite b =>
      if b = 0 then (if a = 0 then nan else inf (decide (a < 0))) else round fmt (a / b)
  | finite _, inf _ => finite 0
  | inf s, finite b => inf (xor s (decide (b < 0)))
  | _, _ => nan

/-- The comparison `a <= b`; false when an operand is NaN. -/
def le : Fp → Fp → Prop
  | finite a, finite b => a ≤ b
  | finite _, inf s => s = false
  | inf s, finite _ => s = true
  | inf s, inf t => s = true ∨ t = false
  | _, _ => False

instance (a b : Fp) : Decidable (le a b) := by
  cases a <;> cases b <;> simp only [le] <;> infer_instance

/-- The comparison `a >= b`. -/
def ge (a b : Fp) : Prop := le b a

instance (a b : Fp) : Decidable (ge a b) := by
  unfold ge; infer_instance

/-- The comparison `a < b`; false when an operand is NaN. -/
def lt : Fp → Fp → Prop
  | finite a, finite b => a < b
  | finite _, inf s => s = false
  | inf s, finite _ => s = true
  | inf s, inf t => s = true ∧ t = false
  | _, _ => False

instance (a b : Fp) : Decidable (lt a b) := by
  cases a <;> cases b <;> simp only [lt] <;> infer_instance

/-- Conversion of an `int` to a format. -/
def ofInt (fmt : Format) (n : Int) : Fp := round fmt (n : ℚ)

/-- Conversion of a value to another format (`float` to `double` changes nothing). -/
def convert (fmt : Format) : Fp → Fp
  | finite a => round fmt a
  | x => x

end Fp

/-! ## The numeric code in binary32

The layout, the hit test and the animation once more, with every `float` operation of the
source rounded as the machine rounds it. -/

namespace Binary32

/-- The `float` literal written with the decimal `q` (`0.93f`, `0.4f`, ...). -/
def f32 (q : ℚ) : Fp := Fp.round Format.binary32 q

/-- The `double` literal written with the decimal `q` (`1.2`). -/
def f64 (q : ℚ) : Fp := Fp.round Format.binary64 q

/-- The numeric fields of `GameEngine`: `bg_intensity_` and `vertices_` hold binary32
values, `width_` and `height_` the `int`s given to `onSurfaceChanged`. -/
structure GameEngine where
  bg_intensity_ : Fp
  bg_intensity_increasing_ : Bool
  width_ : Int
  height_ : Int
  vertices_ : Nat → Fp

/-- The eight stores of one iteration of the loop of `onSurfaceChanged` (`base = i * 8`). -/
def writeButton (vertices : Nat → Fp) (i : Nat) (currentHeight heightIncrement : Fp) :
    Nat → Fp :=
  let base := i * 8
  let v0 := Function.update vertices base (Fp.neg (f32 0.9))
  let v1 := Function.update v0 (base + 1) currentHeight
  let v2 := Function.update v1 (base + 2) (f32 0.9)
  let v3 := Function.update v2 (base + 3) currentHeight
  let v4 := Function.update v3 (base + 4) (Fp.neg (f32 0.9))
  let v5 := Function.update v4 (base + 5) (Fp.sub Format.binary32 currentHeight heightIncrement)
  let v6 := Function.update v5 (base + 6) (f32 0.9)
  Function.update v6 (base + 7) (Fp.sub Format.binary32 currentHeight heightIncrement)

/-- The statement `currentHeight -= 1.2 * heightIncrement`: the product and the difference
are computed in `double`, the result is stored back into the `GLfloat`. -/
def decrementHeight (heightIncrement currentHeight : Fp) : Fp :=
  Fp.convert Format.binary32
    (Fp.sub Format.binary64 (Fp.convert Format.binary64 currentHeight)
      (Fp.mul Format.binary64 (f64 1.2) (Fp.convert Format.binary64 heightIncrement)))

/-- The loop of `onSurfaceChanged`, with `remaining` iterations to go, the next one at
index `i`. -/
def layoutLoop (heightIncrement : Fp) : (remaining : Nat) → (i : Nat) → (Nat → Fp) → Fp →
    (Nat → Fp)
  | 0, _, vertices, _ => vertices
  | remaining + 1, i, vertices, currentHeight =>
      layoutLoop heightIncrement remaining (i + 1)
        (writeButton vertices i currentHeight heightIncrement)
        (decrementHeight heightIncrement currentHeight)

/-- `GameEngine::onSurfaceChanged(int width, int height)`. -/
def onSurfaceChanged (kNumberOfButtons : Nat) (g : GameEngine) (width height : Int) :
    GameEngine :=
  let heightIncrement : Fp := f32 0.25
  let currentHeight : Fp := f32 0.93
  { g with
    width_ := width
    height_ := height
    vertices_ := layoutLoop heightIncrement kNumberOfButtons 0 g.vertices_ currentHeight }

/-- `viewport_x` of `onTap`: `1 - (((width_ - x) * 2) / width_)`. -/
def viewport_x (g : GameEngine) (x : Fp) : Fp :=
  Fp.sub Format.binary32 (Fp.ofInt Format.binary32 1)
    (Fp.div Format.binary32
      (Fp.mul Format.binary32
        (Fp.sub Format.binary32 (Fp.ofInt Format.binary32 g.width_) x)
        (Fp.ofInt Format.binary32 2))
      (Fp.ofInt Format.binary32 g.width_))

/-- `viewport_y` of `onTap`: `1 - (((y)*2) / height_)`. -/
def viewport_y (g : GameEngine) (y : Fp) : Fp :=
  Fp.sub Format.binary32 (Fp.ofInt Format.binary32 1)
    (Fp.div Format.binary32
      (Fp.mul Format.binary32 y (Fp.ofInt Format.binary32 2))
      (Fp.ofInt Format.binary32 g.height_))

/-- The condition of the `if` in the scanning loop of `onTap`, for button `i`. -/
def inButton (vertices : Nat → Fp) (i : Nat) (vx vy : Fp) : Prop :=
  Fp.ge vx (vertices (i * 8)) ∧ Fp.le vx (vertices (i * 8 + 2)) ∧
    Fp.le vy (vertices (i * 8 + 1)) ∧ Fp.ge vy (vertices (i * 8 + 5))

instance (vertices : Nat → Fp) (i : Nat) (vx vy : Fp) : Decidable (inButton vertices i vx vy) := by
  unfold inButton; infer_instance

/-- The scanning loop of `onTap` with `remaining` iterations to go, the next one at
index `i`; `button_number` is `-1` when the loop ends without a `break`. -/
def scanLoop (vertices : Nat → Fp) (vx vy : Fp) : (remaining : Nat) → (i : Nat) → Int
  | 0, _ => -1
  | remaining + 1, i =>
      if inButton vertices i vx vy then (i : Int)
      else scanLoop vertices vx vy remaining (i + 1)

/-- The value of `button_number` when `onTap(x, y)` reaches its `switch`. -/
def hitTest (kNumberOfButtons : Nat) (g : GameEngine) (x y : Fp) : Int :=
  scanLoop g.vertices_ (viewport_x g x) (viewport_y g y) kNumberOfButtons 0

/-- The background intensity update of `onUpdate` (from `float diff = ...` to the end). -/
def updateIntensity (g : GameEngine) : GameEngine :=
  let diff : Fp := if g.bg_intensity_increasing_ then f32 0.0025 else Fp.neg (f32 0.0025)
  let g1 := { g with bg_intensity_ := Fp.add Format.binary32 g.bg_intensity_ diff }
  if Fp.ge g1.bg_intensity_ (f32 0.4) then
    { g1 with bg_intensity_increasing_ := false }
  else if Fp.le g1.bg_intensity_ (f32 0.0) then
    { g1 with bg_intensity_increasing_ := true }
  else g1

/-- The two animation fields of an engine. -/
def intensityOf (g : GameEngine) : Fp × Bool :=
  (g.bg_intensity_, g.bg_intensity_increasing_)

/-- An engine with the given animation fields, no surface and zeroed vertices. -/
def engineOf (s : Fp × Bool) : GameEngine :=
  { bg_intensity_ := s.1
    bg_intensity_increasing_ := s.2
    width_ := 0
    height_ := 0
    vertices_ := fun _ => Fp.finite 0 }

/-- The effect of `updateIntensity` on the two animation fields. -/
def tick (s : Fp × Bool) : Fp × Bool :=
  intensityOf (updateIntensity (engineOf s))

/-- Whether `P` holds of `s` and of the `n - 1` states that follow it. -/
def ticksAll (P : Fp × Bool → Bool) : Nat → Fp × Bool → Bool
  | 0, _ => true
  | n + 1, s => P s && ticksAll P n (tick s)

/-- An engine with intensity `0.0f`, increasing, and no surface yet. -/
def sampleEngine : GameEngine := engineOf (Fp.finite 0, true)

end Binary32

/-! ## Definitions used to state the properties -/

/-- The readiness precondition of button `idx` in the words of the specification (§4.4 with
§6): the result of the stage before the command is complete without error. The banner view
is `b`, the interstitial ad is `a`. -/
def specReady (sdk : SdkPoll) (b a : ObjId) (idx : Nat) : Prop :=
  match idx with
  | 0 => (sdk.banner b).InitializeLastResult.completeNoError
  | 1 => (sdk.banner b).LoadAdLastResult.completeNoError
  | 2 => (sdk.banner b).LoadAdLastResult.completeNoError
  | 3 => (sdk.banner b).LoadAdLastResult.completeNoError
  | 4 => (sdk.interstitial a).InitializeLastResult.completeNoError
  | 5 => (sdk.interstitial a).LoadAdLastResult.completeNoError
  | _ => False

/-- The ad objects the engine points to have been given out by the allocator. -/
def World.allocated (w : World) : Prop :=
  (∀ o, w.engine.banner_view_ = some o → o < w.fresh) ∧
  (∀ o, w.engine.interstitial_ad_ = some o → o < w.fresh)

/-- An engine as the constructor leaves it, with no ad object yet. -/
def sampleEngine : GameEngine :=
  { parent_view_ := 0
    banner_view_ := none
    interstitial_ad_ := none
    banner_view_listener_set_ := false
    interstitial_ad_listener_set_ := false
    bg_intensity_ := 0
    bg_intensity_increasing_ := true
    width_ := 0
    height_ := 0
    vertices_ := fun _ => 0 }

/-- The configuration with six buttons and both ad formats under test. -/
def sampleConfig : Config :=
  { kNumberOfButtons := 6, kTestBannerView := true, kTestInterstitialAd := true }

/-- The world before `Initialize`: the sample engine and an allocator that has given out
nothing. -/
def sampleWorld : World := { engine := sampleEngine, fresh := 0 }

/-- The sample engine after `Initialize` (banner view 0, interstitial ad 1) and
`onSurfaceChanged(100, 100)`. -/
def tappableEngine : GameEngine :=
  GameEngine.onSurfaceChanged sampleConfig
    (GameEngine.Initialize sampleConfig 0 sampleWorld).1.engine 100 100

/-- Readings in which every ad object is initialized, the banner's last load has completed
with an error while the banner is visible with an ad, and nothing else has happened. -/
def failedReloadSdk : SdkPoll :=
  { banner := fun _ =>
      { InitializeLastResult := ⟨FutureStatus.kFutureStatusComplete, AdError.kAdErrorNone⟩
        LoadAdLastResult := ⟨FutureStatus.kFutureStatusComplete, AdError.kAdErrorOther 1⟩
        GetPresentationState := BannerPresentationState.kPresentationStateVisibleWithAd }
    interstitial := fun _ =>
      { InitializeLastResult := ⟨FutureStatus.kFutureStatusComplete, AdError.kAdErrorNone⟩
        LoadAdLastResult := ⟨FutureStatus.kFutureStatusPending, AdError.kAdErrorNone⟩
        ShowLastResult := ⟨FutureStatus.kFutureStatusPending, AdError.kAdErrorNone⟩
        GetPresentationState := InterstitialPresentationState.kPresentationStateHidden } }

/-- Readings in which nothing has completed yet. -/
def pendingSdk : SdkPoll :=
  { banner := fun _ =>
      { InitializeLastResult := ⟨FutureStatus.kFutureStatusPending, AdError.kAdErrorNone⟩
        LoadAdLastResult := ⟨FutureStatus.kFutureStatusPending, AdError.kAdErrorNone⟩
        GetPresentationState := BannerPresentationState.kPresentationStateHidden }
    interstitial := fun _ =>
      { InitializeLastResult := ⟨FutureStatus.kFutureStatusPending, AdError.kAdErrorNone⟩
        LoadAdLastResult := ⟨FutureStatus.kFutureStatusPending, AdError.kAdErrorNone⟩
        ShowLastResult := ⟨FutureStatus.kFutureStatusPending, AdError.kAdErrorNone⟩
        GetPresentationState := InterstitialPresentationState.kPresentationStateHidden } }

/-- What the listener property needs to know about the requests made so far (`tr`): a
listener was only ever set on an object the allocator has given out, never twice on the same
object, and not yet on the current object while its flag is `false`. -/
def ListenerInv (w : World) (tr : List SdkCall) : Prop :=
  w.allocated ∧
  (∀ o, SdkCall.bannerSetListener o ∈ tr → o < w.fresh) ∧
  (∀ o, SdkCall.interstitialSetListener o ∈ tr → o < w.fresh) ∧
  (∀ o, w.engine.banner_view_ = some o → w.engine.banner_view_listener_set_ = false →
    SdkCall.bannerSetListener o ∉ tr) ∧
  (∀ o, w.engine.interstitial_ad_ = some o → w.engine.interstitial_ad_listener_set_ = false →
    SdkCall.interstitialSetListener o ∉ tr) ∧
  (∀ o, tr.count (SdkCall.bannerSetListener o) ≤ 1) ∧
  (∀ o, tr.count (SdkCall.interstitialSetListener o) ≤ 1)

/-! ## Layout -/

namespace GameEngine

theorem writeButton_at (v : Nat → ℚ) (i : Nat) (c hi : ℚ) :
    writeButton v i c hi (i * 8) = -0.9 ∧ writeButton v i c hi (i * 8 + 1) = c ∧
    writeButton v i c hi (i * 8 + 2) = 0.9 ∧ writeButton v i c hi (i * 8 + 3) = c ∧
    writeButton v i c hi (i * 8 + 4) = -0.9 ∧ writeButton v i c hi (i * 8 + 5) = c - hi ∧
    writeButton v i c hi (i * 8 + 6) = 0.9 ∧ writeButton v i c hi (i * 8 + 7) = c - hi := by
  simp [writeButton, Function.update]

theorem writeButton_other (v : Nat → ℚ) (i : Nat) (c hi : ℚ) (k : Nat)
    (hk : k < i * 8 ∨ i * 8 + 8 ≤ k) : writeButton v i c hi k = v k := by
  have h0 : k ≠ i * 8 := by omega
  have h1 : k ≠ i * 8 + 1 := by omega
  have h2 : k ≠ i * 8 + 2 := by omega
  have h3 : k ≠ i * 8 + 3 := by omega
  have h4 : k ≠ i * 8 + 4 := by omega
  have h5 : k ≠ i * 8 + 5 := by omega
  have h6 : k ≠ i * 8 + 6 := by omega
  have h7 : k ≠ i * 8 + 7 := by omega
  simp [writeButton, Function.update, h0, h1, h2, h3, h4, h5, h6, h7]

theorem layoutLoop_below (hi : ℚ) (r : Nat) :
    ∀ (i0 : Nat) (v : Nat → ℚ) (c : ℚ) (k : Nat), k < i0 * 8 →
      layoutLoop hi r i0 v c k = v k := by
  induction r with
  | zero => intro i0 v c k _; rfl
  | succ r ih =>
    intro i0 v c k hk
    rw [layoutLoop, ih (i0 + 1) _ _ k (by omega)]
    exact writeButton_other v i0 c hi k (Or.inl hk)

theorem layoutLoop_above (hi : ℚ) (r : Nat) :
    ∀ (i0 : Nat) (v : Nat → ℚ) (c : ℚ) (k : Nat), (i0 + r) * 8 ≤ k →
      layoutLoop hi r i0 v c k = v k := by
  induction r with
  | zero => intro i0 v c k _; rfl
  | succ r ih =>
    intro i0 v c k hk
    rw [layoutLoop, ih (i0 + 1) _ _ k (by omega)]
    exact writeButton_other v i0 c hi k (Or.inr (by omega))

theorem layoutLoop_at (hi : ℚ) (r : Nat) :
    ∀ (i0 : Nat) (v : Nat → ℚ) (c : ℚ) (j : Nat), i0 ≤ j → j < i0 + r →
      layoutLoop hi r i0 v c (j * 8) = -0.9 ∧
      layoutLoop hi r i0 v c (j * 8 + 1) = c - 1.2 * hi * ((j : ℚ) - i0) ∧
      layoutLoop hi r i0 v c (j * 8 + 2) = 0.9 ∧
      layoutLoop hi r i0 v c (j * 8 + 3) = c - 1.2 * hi * ((j : ℚ) - i0) ∧
      layoutLoop hi r i0 v c (j * 8 + 4) = -0.9 ∧
      layoutLoop hi r i0 v c (j * 8 + 5) = c - 1.2 * hi * ((j : ℚ) - i0) - hi ∧
      layoutLoop hi r i0 v c (j * 8 + 6) = 0.9 ∧
      layoutLoop hi r i0 v c (j * 8 + 7) = c - 1.2 * hi * ((j : ℚ) - i0) - hi := by
  induction r with
  | zero => intro i0 v c j h1 h2; omega
  | succ r ih =>
    intro i0 v c j h1 h2
    rcases Nat.eq_or_lt_of_le h1 with h | h
    · subst h
      simp only [layoutLoop]
      rw [layoutLoop_below hi r (i0 + 1) _ _ (i0 * 8) (by omega),
        layoutLoop_below hi r (i0 + 1) _ _ (i0 * 8 + 1) (by omega),
        layoutLoop_below hi r (i0 + 1) _ _ (i0 * 8 + 2) (by omega),
        layoutLoop_below hi r (i0 + 1) _ _ (i0 * 8 + 3) (by omega),
        layoutLoop_below hi r (i0 + 1) _ _ (i0 * 8 + 4) (by omega),
        layoutLoop_below hi r (i0 + 1) _ _ (i0 * 8 + 5) (by omega),
        layoutLoop_below hi r (i0 + 1) _ _ (i0 * 8 + 6) (by omega),
        layoutLoop_below hi r (i0 + 1) _ _ (i0 * 8 + 7) (by omega)]
      simpa using writeButton_at v i0 c hi
    · simp only [layoutLoop]
      have := ih (i0 + 1) (writeButton v i0 c hi) (c - 1.2 * hi) j (by omega) (by omega)
      have e : c - 1.2 * hi - 1.2 * hi * ((j : ℚ) - ((i0 + 1 : Nat) : ℚ))
          = c - 1.2 * hi * ((j : ℚ) - i0) := by push_cast; ring
      rw [e] at this
      exact this

theorem onSurfaceChanged_region (cfg : Config) (g : GameEngine) (width height : Int) (i : Nat)
    (hi : i < cfg.kNumberOfButtons) :
    (onSurfaceChanged cfg g width height).vertices_ (i * 8) = -0.9 ∧
    (onSurfaceChanged cfg g width height).vertices_ (i * 8 + 2) = 0.9 ∧
    (onSurfaceChanged cfg g width height).vertices_ (i * 8 + 1) = 0.93 - 0.3 * (i : ℚ) ∧
    (onSurfaceChanged cfg g width height).vertices_ (i * 8 + 5) =
      0.93 - 0.3 * (i : ℚ) - 0.25 := by
  have h := layoutLoop_at 0.25 cfg.kNumberOfButtons 0 g.vertices_ 0.93 i (Nat.zero_le _)
    (by omega)
  obtain ⟨h0, h1, h2, -, -, h5, -, -⟩ := h
  simp only [onSurfaceChanged]
  refine ⟨h0, h2, ?_, ?_⟩
  · rw [h1]; push_cast; ring
  · rw [h5]; push_cast; ring

theorem onSurfaceChanged_descending (cfg : Config) (g : GameEngine) (width height : Int)
    (i j : Nat) (hij : i < j) (hj : j < cfg.kNumberOfButtons) :
    (onSurfaceChanged cfg g width height).vertices_ (j * 8 + 1) <
      (onSurfaceChanged cfg g width height).vertices_ (i * 8 + 5) := by
  obtain ⟨-, -, -, d⟩ := onSurfaceChanged_region cfg g width height i (by omega)
  obtain ⟨-, -, c, -⟩ := onSurfaceChanged_region cfg g width height j hj
  rw [d, c]
  have h1 : (i : ℚ) + 1 ≤ (j : ℚ) := by exact_mod_cast hij
  linarith

/-! ## Hit test -/

theorem scanLoop_spec (v : Nat → ℚ) (vx vy : ℚ) (r : Nat) :
    ∀ i0 : Nat,
      (scanLoop v vx vy r i0 = -1 ∧ ∀ j, i0 ≤ j → j < i0 + r → ¬ inButton v j vx vy) ∨
      (∃ j : Nat, i0 ≤ j ∧ j < i0 + r ∧ scanLoop v vx vy r i0 = (j : Int) ∧
        inButton v j vx vy ∧ ∀ k, i0 ≤ k → k < j → ¬ inButton v k vx vy) := by
  induction r with
  | zero =>
    intro i0
    left
    exact ⟨rfl, fun j h1 h2 => by omega⟩
  | succ r ih =>
    intro i0
    by_cases hc : inButton v i0 vx vy
    · right
      refine ⟨i0, le_refl _, by omega, by simp [scanLoop, hc], hc, fun k h1 h2 => by omega⟩
    · have hs : scanLoop v vx vy (r + 1) i0 = scanLoop v vx vy r (i0 + 1) := by
        simp [scanLoop, hc]
      rcases ih (i0 + 1) with ⟨h1, h2⟩ | ⟨j, h1, h2, h3, h4, h5⟩
      · left
        refine ⟨by rw [hs, h1], fun j hj1 hj2 => ?_⟩
        rcases Nat.eq_or_lt_of_le hj1 with e | e
        · subst e; exact hc
        · exact h2 j (by omega) (by omega)
      · right
        refine ⟨j, by omega, by omega, by rw [hs, h3], h4, fun k hk1 hk2 => ?_⟩
        rcases Nat.eq_or_lt_of_le hk1 with e | e
        · subst e; exact hc
        · exact h5 k (by omega) hk2

/-- After `onSurfaceChanged`, at most one region contains a given point. -/
theorem inButton_unique (cfg : Config) (g : GameEngine) (width height : Int) (vx vy : ℚ)
    (i j : Nat) (hi : i < cfg.kNumberOfButtons) (hj : j < cfg.kNumberOfButtons)
    (h1 : inButton (onSurfaceChanged cfg g width height).vertices_ i vx vy)
    (h2 : inButton (onSurfaceChanged cfg g width height).vertices_ j vx vy) : i = j := by
  have L := onSurfaceChanged_descending cfg g width height
  rcases Nat.lt_trichotomy i j with h | h | h
  · have := L i j h hj
    obtain ⟨-, -, -, a⟩ := h1
    obtain ⟨-, -, b, -⟩ := h2
    exact absurd (lt_of_le_of_lt (le_trans a b) this) (lt_irrefl _)
  · exact h
  · have := L j i h hi
    obtain ⟨-, -, b, -⟩ := h1
    obtain ⟨-, -, -, a⟩ := h2
    exact absurd (lt_of_le_of_lt (le_trans a b) this) (lt_irrefl _)

theorem hitTest_cases (cfg : Config) (g : GameEngine) (x y : ℚ) :
    (hitTest cfg g x y = -1 ∧
      ∀ j, j < cfg.kNumberOfButtons →
        ¬ inButton g.vertices_ j (viewport_x g x) (viewport_y g y)) ∨
    (∃ j : Nat, j < cfg.kNumberOfButtons ∧ hitTest cfg g x y = (j : Int) ∧
      inButton g.vertices_ j (viewport_x g x) (viewport_y g y) ∧
      ∀ k, k < j → ¬ inButton g.vertices_ k (viewport_x g x) (viewport_y g y)) := by
  rcases scanLoop_spec g.vertices_ (viewport_x g x) (viewport_y g y) cfg.kNumberOfButtons 0
    with ⟨h1, h2⟩ | ⟨j, -, h2, h3, h4, h5⟩
  · left
    exact ⟨h1, fun j hj => h2 j (Nat.zero_le _) (by omega)⟩
  · right
    exact ⟨j, by omega, h3, h4, fun k hk => h5 k (Nat.zero_le _) hk⟩

theorem hitTest_eq_iff (cfg : Config) (g : GameEngine) (width height : Int) (x y : ℚ) (i : Nat) :
    hitTest cfg (onSurfaceChanged cfg g width height) x y = (i : Int) ↔
      i < cfg.kNumberOfButtons ∧
        inButton (onSurfaceChanged cfg g width height).vertices_ i
          (viewport_x (onSurfaceChanged cfg g width height) x)
          (viewport_y (onSurfaceChanged cfg g width height) y) := by
  rcases hitTest_cases cfg (onSurfaceChanged cfg g width height) x y with
    ⟨h1, h2⟩ | ⟨j, h1, h2, h3, -⟩
  · constructor
    · intro h
      rw [h1] at h
      omega
    · rintro ⟨hi, hin⟩
      exact absurd hin (h2 i hi)
  · constructor
    · intro h
      rw [h2] at h
      have : j = i := by exact_mod_cast h
      subst this
      exact ⟨h1, h3⟩
    · rintro ⟨hi, hin⟩
      rw [h2, inButton_unique cfg g width height _ _ i j hi h1 hin h3]

theorem viewport_x_eq (cfg : Config) (g : GameEngine) (width height : Int) (x : ℚ) :
    viewport_x (onSurfaceChanged cfg g width height) x
      = 1 - 2 * ((width : ℚ) - x) / (width : ℚ) := by
  simp only [viewport_x, onSurfaceChanged]
  ring

theorem viewport_y_eq (cfg : Config) (g : GameEngine) (width height : Int) (y : ℚ) :
    viewport_y (onSurfaceChanged cfg g width height) y = 1 - 2 * y / (height : ℚ) := by
  simp only [viewport_y, onSurfaceChanged]
  ring

end GameEngine

/-! ## Dispatch -/

namespace GameEngine

theorem tappableEngine_banner : tappableEngine.banner_view_ = some 0 := by
  simp [tappableEngine, onSurfaceChanged, Initialize, sampleConfig, sampleWorld]

theorem tappableEngine_interstitial : tappableEngine.interstitial_ad_ = some 1 := by
  simp [tappableEngine, onSurfaceChanged, Initialize, sampleConfig, sampleWorld]

theorem dispatch_engine (cfg : Config) (sdk : SdkPoll) (g g2 : GameEngine) (n : Int)
    (t : List SdkCall) (h : dispatch cfg sdk g n = some (g2, t)) : g2 = g := by
  unfold dispatch at h
  repeat' split at h
  all_goals simp at h
  all_goals exact h.1.symm

/-- C8, as stated, fails at button 1: with the banner's last load complete with an error (so
the readiness precondition is false) and the banner visible with an ad, the dispatch issues
`Hide`. -/
theorem dispatch_hide_not_ready :
    ¬ specReady failedReloadSdk 0 1 1 ∧
    dispatch sampleConfig failedReloadSdk tappableEngine 1
      = some (tappableEngine, [SdkCall.bannerHide 0]) := by
  refine ⟨?_, ?_⟩
  · simp [specReady, Future.completeNoError, failedReloadSdk]
  · simp [dispatch, tappableEngine_banner, sampleConfig, failedReloadSdk]

/-- C8 amended: with the ad objects under test in place, for every button index in `0..5`
whose readiness precondition (the prior-stage result is complete without error) is false, the
dispatch of `onTap` issues no SDK command and leaves the engine as it is, except that at
index 1 this needs the banner's `LoadAdLastResult` not to be complete or the presentation
state not to be visible-with-ad: with the status complete and the banner visible with an ad,
`Hide` is issued whatever the error. In particular the dispatch of 0 while the banner's
`InitializeLastResult` is not complete without error issues nothing. A button number outside
`0..5`, and so a tap that hits no button, issues no command, and no dispatch changes the
engine. -/
theorem silent_ignore (cfg : Config) (sdk : SdkPoll) (g : GameEngine) (b a : ObjId)
    (hb : cfg.kTestBannerView = true → g.banner_view_ = some b)
    (ha : cfg.kTestInterstitialAd = true → g.interstitial_ad_ = some a) :
    (∀ idx : Nat, idx ≤ 5 → ¬ specReady sdk b a idx →
      (idx = 1 →
        ¬ ((sdk.banner b).LoadAdLastResult.Status = FutureStatus.kFutureStatusComplete ∧
           (sdk.banner b).GetPresentationState =
             BannerPresentationState.kPresentationStateVisibleWithAd)) →
      dispatch cfg sdk g (idx : Int) = some (g, [])) ∧
    (¬ (sdk.banner b).InitializeLastResult.completeNoError →
      dispatch cfg sdk g 0 = some (g, [])) ∧
    (cfg.kTestBannerView = true →
      (sdk.banner b).LoadAdLastResult.Status = FutureStatus.kFutureStatusComplete →
      (sdk.banner b).GetPresentationState =
        BannerPresentationState.kPresentationStateVisibleWithAd →
      dispatch cfg sdk g 1 = some (g, [SdkCall.bannerHide b])) ∧
    (∀ n : Int, n < 0 ∨ 5 < n → dispatch cfg sdk g n = some (g, [])) ∧
    (∀ x y : ℚ, hitTest cfg g x y = -1 → onTap cfg sdk g x y = some (g, [])) ∧
    (∀ (n : Int) (g2 : GameEngine) (t : List SdkCall),
      dispatch cfg sdk g n = some (g2, t) → g2 = g) := by
  have out : ∀ n : Int, n < 0 ∨ 5 < n → dispatch cfg sdk g n = some (g, []) := by
    intro n hn
    have h0 : n ≠ 0 := by omega
    have h1 : n ≠ 1 := by omega
    have h2 : n ≠ 2 := by omega
    have h3 : n ≠ 3 := by omega
    have h4 : n ≠ 4 := by omega
    have h5 : n ≠ 5 := by omega
    simp [dispatch, h0, h1, h2, h3, h4, h5]
  have zero : ¬ (sdk.banner b).InitializeLastResult.completeNoError →
      dispatch cfg sdk g 0 = some (g, []) := by
    intro hn
    cases hc : cfg.kTestBannerView
    · simp [dispatch, hc]
    · have hn2 : ¬ ((sdk.banner b).InitializeLastResult.Status =
            FutureStatus.kFutureStatusComplete ∧
          (sdk.banner b).InitializeLastResult.Error = AdError.kAdErrorNone) := hn
      simp only [dispatch, hc, hb hc, if_true, if_neg hn2]
  refine ⟨?_, zero, ?_, out, ?_, fun n g2 t h => dispatch_engine cfg sdk g g2 n t h⟩
  · intro idx hidx hnr h1
    have cases6 : idx = 0 ∨ idx = 1 ∨ idx = 2 ∨ idx = 3 ∨ idx = 4 ∨ idx = 5 := by omega
    rcases cases6 with e | e | e | e | e | e <;> subst e
    · exact zero hnr
    · have hn2 : ¬ ((sdk.banner b).LoadAdLastResult.Status =
            FutureStatus.kFutureStatusComplete ∧
          (sdk.banner b).LoadAdLastResult.Error = AdError.kAdErrorNone) := hnr
      cases hc : cfg.kTestBannerView
      · simp [dispatch, hc]
      · have hn3 : ¬ ((sdk.banner b).LoadAdLastResult.Status =
              FutureStatus.kFutureStatusComplete ∧
            (sdk.banner b).LoadAdLastResult.Error = AdError.kAdErrorNone ∧
            (sdk.banner b).GetPresentationState =
              BannerPresentationState.kPresentationStateHidden) :=
          fun h => hn2 ⟨h.1, h.2.1⟩
        simp [dispatch, hc, hb hc, if_neg hn3, if_neg (h1 rfl)]
    · have hn2 : ¬ ((sdk.banner b).LoadAdLastResult.Status =
            FutureStatus.kFutureStatusComplete ∧
          (sdk.banner b).LoadAdLastResult.Error = AdError.kAdErrorNone) := hnr
      cases hc : cfg.kTestBannerView
      · simp [dispatch, hc]
      · simp [dispatch, hc, hb hc, if_neg hn2]
    · have hn2 : ¬ ((sdk.banner b).LoadAdLastResult.Status =
            FutureStatus.kFutureStatusComplete ∧
          (sdk.banner b).LoadAdLastResult.Error = AdError.kAdErrorNone) := hnr
      cases hc : cfg.kTestBannerView
      · simp [dispatch, hc]
      · simp [dispatch, hc, hb hc, if_neg hn2]
    · have hn2 : ¬ ((sdk.interstitial a).InitializeLastResult.Status =
            FutureStatus.kFutureStatusComplete ∧
          (sdk.interstitial a).InitializeLastResult.Error = AdError.kAdErrorNone) := hnr
      cases hc : cfg.kTestInterstitialAd
      · simp [dispatch, hc]
      · simp [dispatch, hc, ha hc, if_neg hn2]
    · have hn2 : ¬ ((sdk.interstitial a).LoadAdLastResult.Status =
            FutureStatus.kFutureStatusComplete ∧
          (sdk.interstitial a).LoadAdLastResult.Error = AdError.kAdErrorNone) := hnr
      have hn3 : ¬ ((sdk.interstitial a).LoadAdLastResult.Status =
            FutureStatus.kFutureStatusComplete ∧
          (sdk.interstitial a).LoadAdLastResult.Error = AdError.kAdErrorNone ∧
          (sdk.interstitial a).ShowLastResult.Status ≠
            FutureStatus.kFutureStatusComplete) :=
        fun h => hn2 ⟨h.1, h.2.1⟩
      cases hc : cfg.kTestInterstitialAd
      · simp [dispatch, hc]
      · simp [dispatch, hc, ha hc, if_neg hn3]
  · intro hc hs hp
    have hn3 : ¬ ((sdk.banner b).LoadAdLastResult.Status =
          FutureStatus.kFutureStatusComplete ∧
        (sdk.banner b).LoadAdLastResult.Error = AdError.kAdErrorNone ∧
        (sdk.banner b).GetPresentationState =
          BannerPresentationState.kPresentationStateHidden) := by
      intro h
      rw [hp] at h
      exact absurd h.2.2 (by decide)
    simp [dispatch, hc, hb hc, if_neg hn3, hs, hp]
  · intro x y h
    rw [onTap, h]
    exact out (-1) (Or.inl (by decide))

/-- Zero invocations for a tap on button 0, and on button 3, while nothing has completed. -/
theorem silent_ignore_witness :
    dispatch sampleConfig pendingSdk tappableEngine 0 = some (tappableEngine, []) ∧
    dispatch sampleConfig pendingSdk tappableEngine ((3 : Nat) : Int)
      = some (tappableEngine, []) :=
  ⟨(silent_ignore sampleConfig pendingSdk tappableEngine 0 1
      (fun _ => tappableEngine_banner) (fun _ => tappableEngine_interstitial)).2.1
      (by simp [Future.completeNoError, pendingSdk]),
   (silent_ignore sampleConfig pendingSdk tappableEngine 0 1
      (fun _ => tappableEngine_banner) (fun _ => tappableEngine_interstitial)).1 3
      (by decide) (by simp [specReady, Future.completeNoError, pendingSdk])
      (by decide)⟩

theorem dispatch_guards (cfg : Config) (sdk : SdkPoll) (g g2 : GameEngine) (n : Int)
    (t : List SdkCall) (h : dispatch cfg sdk g n = some (g2, t)) (c : SdkCall) (hc : c ∈ t) :
    (∀ o r, c = SdkCall.bannerLoadAd o r →
      g.banner_view_ = some o ∧ (sdk.banner o).InitializeLastResult.completeNoError) ∧
    (∀ o, c = SdkCall.bannerShow o →
      g.banner_view_ = some o ∧ (sdk.banner o).LoadAdLastResult.completeNoError ∧
      (sdk.banner o).GetPresentationState =
        BannerPresentationState.kPresentationStateHidden) ∧
    (∀ o, c = SdkCall.bannerHide o →
      g.banner_view_ = some o ∧
      (sdk.banner o).LoadAdLastResult.Status = FutureStatus.kFutureStatusComplete ∧
      (sdk.banner o).GetPresentationState =
        BannerPresentationState.kPresentationStateVisibleWithAd) ∧
    (∀ o p, c = SdkCall.bannerMoveToPosition o p →
      g.banner_view_ = some o ∧ (sdk.banner o).LoadAdLastResult.completeNoError) ∧
    (∀ o x y, c = SdkCall.bannerMoveToXY o x y →
      g.banner_view_ = some o ∧ (sdk.banner o).LoadAdLastResult.completeNoError) ∧
    (∀ o r, c = SdkCall.interstitialLoadAd o r →
      g.interstitial_ad_ = some o ∧
      (sdk.interstitial o).InitializeLastResult.completeNoError) ∧
    (∀ o, c = SdkCall.interstitialShow o →
      g.interstitial_ad_ = some o ∧ (sdk.interstitial o).LoadAdLastResult.completeNoError ∧
      (sdk.interstitial o).ShowLastResult.Status ≠ FutureStatus.kFutureStatusComplete) ∧
    (∀ o, c ≠ SdkCall.bannerSetListener o ∧ c ≠ SdkCall.interstitialSetListener o) := by
  unfold dispatch at h
  repeat' split at h
  all_goals simp only [Option.some.injEq, Prod.mk.injEq, reduceCtorEq] at h
  all_goals obtain ⟨-, rfl⟩ := h
  all_goals simp only [List.mem_singleton, List.not_mem_nil] at hc
  all_goals subst hc
  all_goals simp_all [Future.completeNoError]

theorem tappableEngine_hit_one : hitTest sampleConfig tappableEngine 50 25 = 1 := by
  have h := (hitTest_eq_iff sampleConfig
    (Initialize sampleConfig 0 sampleWorld).1.engine 100 100 50 25 1).mpr (by
      refine ⟨by decide, ?_⟩
      obtain ⟨a, b, c, d⟩ := onSurfaceChanged_region sampleConfig
        (Initialize sampleConfig 0 sampleWorld).1.engine 100 100 1 (by decide)
      rw [viewport_x_eq, viewport_y_eq]
      simp only [inButton, a, b, c, d]
      norm_num)
  simpa [tappableEngine] using h

/-- C9, as stated, fails for `Hide`: on a 100 x 100 surface the tap (50, 25) hits button 1,
and with the banner's `LoadAdLastResult` complete with an error and the banner visible with
an ad, `onTap` issues `Hide` on the banner view. -/
theorem tap_hides_after_failed_load :
    onTap sampleConfig failedReloadSdk tappableEngine 50 25
      = some (tappableEngine, [SdkCall.bannerHide 0]) ∧
    (failedReloadSdk.banner 0).LoadAdLastResult.Error ≠ AdError.kAdErrorNone ∧
    ¬ (failedReloadSdk.banner 0).LoadAdLastResult.completeNoError := by
  refine ⟨?_, ?_, ?_⟩
  · rw [onTap, tappableEngine_hit_one]
    simp [dispatch, tappableEngine_banner, sampleConfig, failedReloadSdk]
  · simp [failedReloadSdk]
  · simp [Future.completeNoError, failedReloadSdk]

/-- C9 amended: for every polled SDK state and every tap, whenever `onTap` issues `LoadAd` on
an ad object that object's `InitializeLastResult` is complete with error none; whenever it
issues `Show` or `MoveTo` on an ad object that object's `LoadAdLastResult` is complete with
error none; and whenever it issues `Hide` on the banner view, the banner's
`LoadAdLastResult` has status complete and the banner is visible with an ad (the error is
not consulted). The object is the one the engine currently holds. -/
theorem commands_guarded (cfg : Config) (sdk : SdkPoll) (g g2 : GameEngine) (x y : ℚ)
    (t : List SdkCall) (h : onTap cfg sdk g x y = some (g2, t)) (c : SdkCall) (hc : c ∈ t) :
    (∀ o r, c = SdkCall.bannerLoadAd o r →
      g.banner_view_ = some o ∧ (sdk.banner o).InitializeLastResult.completeNoError) ∧
    (∀ o r, c = SdkCall.interstitialLoadAd o r →
      g.interstitial_ad_ = some o ∧
      (sdk.interstitial o).InitializeLastResult.completeNoError) ∧
    (∀ o, c = SdkCall.bannerShow o →
      g.banner_view_ = some o ∧ (sdk.banner o).LoadAdLastResult.completeNoError) ∧
    (∀ o, c = SdkCall.interstitialShow o →
      g.interstitial_ad_ = some o ∧ (sdk.interstitial o).LoadAdLastResult.completeNoError) ∧
    (∀ o p, c = SdkCall.bannerMoveToPosition o p →
      g.banner_view_ = some o ∧ (sdk.banner o).LoadAdLastResult.completeNoError) ∧
    (∀ o px py, c = SdkCall.bannerMoveToXY o px py →
      g.banner_view_ = some o ∧ (sdk.banner o).LoadAdLastResult.completeNoError) ∧
    (∀ o, c = SdkCall.bannerHide o →
      g.banner_view_ = some o ∧
      (sdk.banner o).LoadAdLastResult.Status = FutureStatus.kFutureStatusComplete ∧
      (sdk.banner o).GetPresentationState =
        BannerPresentationState.kPresentationStateVisibleWithAd) := by
  obtain ⟨h1, h2, h3, h4, h5, h6, h7, -⟩ :=
    dispatch_guards cfg sdk g g2 (hitTest cfg g x y) t h c hc
  refine ⟨h1, h6, ?_, ?_, h4, h5, h3⟩
  · intro o e
    exact ⟨(h2 o e).1, (h2 o e).2.1⟩
  · intro o e
    exact ⟨(h7 o e).1, (h7 o e).2.1⟩

/-- The `Hide` issued by the tap (50, 25) on the 100 x 100 surface is guarded by the status
and the presentation state of the banner view the engine holds. -/
theorem commands_guarded_witness :
    tappableEngine.banner_view_ = some 0 ∧
    (failedReloadSdk.banner 0).LoadAdLastResult.Status = FutureStatus.kFutureStatusComplete ∧
    (failedReloadSdk.banner 0).GetPresentationState =
      BannerPresentationState.kPresentationStateVisibleWithAd :=
  (commands_guarded sampleConfig failedReloadSdk tappableEngine tappableEngine 50 25
    [SdkCall.bannerHide 0]
    (by
      rw [onTap, tappableEngine_hit_one]
      simp [dispatch, tappableEngine_banner, sampleConfig, failedReloadSdk])
    (SdkCall.bannerHide 0) (by simp)).2.2.2.2.2.2 0 rfl

end GameEngine

/-! ## Listeners -/

theorem ListenerInv.extend (w w2 : World) (tr t : List SdkCall) (h : ListenerInv w tr)
    (hfresh : w.fresh ≤ w2.fresh) (halloc : w2.allocated)
    (hb : ∀ o, SdkCall.bannerSetListener o ∈ t →
      w.engine.banner_view_ = some o ∧ w.engine.banner_view_listener_set_ = false ∧
      t.count (SdkCall.bannerSetListener o) ≤ 1)
    (ha : ∀ o, SdkCall.interstitialSetListener o ∈ t →
      w.engine.interstitial_ad_ = some o ∧ w.engine.interstitial_ad_listener_set_ = false ∧
      t.count (SdkCall.interstitialSetListener o) ≤ 1)
    (hb2 : ∀ o, w2.engine.banner_view_ = some o → w2.engine.banner_view_listener_set_ = false →
      SdkCall.bannerSetListener o ∉ t ∧
      (w.fresh ≤ o ∨
        (w.engine.banner_view_ = some o ∧ w.engine.banner_view_listener_set_ = false)))
    (ha2 : ∀ o, w2.engine.interstitial_ad_ = some o →
      w2.engine.interstitial_ad_listener_set_ = false →
      SdkCall.interstitialSetListener o ∉ t ∧
      (w.fresh ≤ o ∨
        (w.engine.interstitial_ad_ = some o ∧
          w.engine.interstitial_ad_listener_set_ = false))) :
    ListenerInv w2 (tr ++ t) := by
  obtain ⟨i1, i2, i3, i4, i5, i6, i7⟩ := h
  refine ⟨halloc, ?_, ?_, ?_, ?_, ?_, ?_⟩
  · intro o ho
    rcases List.mem_append.mp ho with h1 | h1
    · exact lt_of_lt_of_le (i2 o h1) hfresh
    · exact lt_of_lt_of_le (i1.1 o (hb o h1).1) hfresh
  · intro o ho
    rcases List.mem_append.mp ho with h1 | h1
    · exact lt_of_lt_of_le (i3 o h1) hfresh
    · exact lt_of_lt_of_le (i1.2 o (ha o h1).1) hfresh
  · intro o h1 h2 hmem
    obtain ⟨n1, n2⟩ := hb2 o h1 h2
    rcases List.mem_append.mp hmem with h3 | h3
    · rcases n2 with n2 | ⟨n2, n3⟩
      · exact absurd (i2 o h3) (not_lt.mpr n2)
      · exact i4 o n2 n3 h3
    · exact n1 h3
  · intro o h1 h2 hmem
    obtain ⟨n1, n2⟩ := ha2 o h1 h2
    rcases List.mem_append.mp hmem with h3 | h3
    · rcases n2 with n2 | ⟨n2, n3⟩
      · exact absurd (i3 o h3) (not_lt.mpr n2)
      · exact i5 o n2 n3 h3
    · exact n1 h3
  · intro o
    rw [List.count_append]
    by_cases hm : SdkCall.bannerSetListener o ∈ t
    · obtain ⟨h1, h2, h3⟩ := hb o hm
      have : tr.count (SdkCall.bannerSetListener o) = 0 :=
        List.count_eq_zero_of_not_mem (i4 o h1 h2)
      omega
    · have : t.count (SdkCall.bannerSetListener o) = 0 := List.count_eq_zero_of_not_mem hm
      have := i6 o
      omega
  · intro o
    rw [List.count_append]
    by_cases hm : SdkCall.interstitialSetListener o ∈ t
    · obtain ⟨h1, h2, h3⟩ := ha o hm
      have : tr.count (SdkCall.interstitialSetListener o) = 0 :=
        List.count_eq_zero_of_not_mem (i5 o h1 h2)
      omega
    · have : t.count (SdkCall.interstitialSetListener o) = 0 :=
        List.count_eq_zero_of_not_mem hm
      have := i7 o
      omega

namespace GameEngine

theorem setBannerListener_effect (sdk : SdkPoll) (g g2 : GameEngine) (t : List SdkCall)
    (h : setBannerListener sdk g = some (g2, t)) :
    ∃ b, g.banner_view_ = some b ∧
      ((t = [] ∧ g2 = g) ∨
       (t = [SdkCall.bannerSetListener b] ∧
        g2 = { g with banner_view_listener_set_ := true } ∧
        g.banner_view_listener_set_ = false ∧
        (sdk.banner b).InitializeLastResult.completeNoError)) := by
  unfold setBannerListener at h
  cases hb : g.banner_view_ with
  | none => simp [hb] at h
  | some b =>
    refine ⟨b, rfl, ?_⟩
    simp only [hb] at h
    split at h
    · rename_i hc
      simp only [Option.some.injEq, Prod.mk.injEq] at h
      right
      exact ⟨h.2.symm, h.1.symm, hc.2.2, hc.1, hc.2.1⟩
    · simp only [Option.some.injEq, Prod.mk.injEq] at h
      left
      exact ⟨h.2.symm, h.1.symm⟩

theorem setInterstitialListener_effect (sdk : SdkPoll) (g g2 : GameEngine) (t : List SdkCall)
    (h : setInterstitialListener sdk g = some (g2, t)) :
    ∃ a, g.interstitial_ad_ = some a ∧
      ((t = [] ∧ g2 = g) ∨
       (t = [SdkCall.interstitialSetListener a] ∧
        g2 = { g with interstitial_ad_listener_set_ := true } ∧
        g.interstitial_ad_listener_set_ = false ∧
        (sdk.interstitial a).InitializeLastResult.completeNoError)) := by
  unfold setInterstitialListener at h
  cases hb : g.interstitial_ad_ with
  | none => simp [hb] at h
  | some a =>
    refine ⟨a, rfl, ?_⟩
    simp only [hb] at h
    split at h
    · rename_i hc
      simp only [Option.some.injEq, Prod.mk.injEq] at h
      right
      exact ⟨h.2.symm, h.1.symm, hc.2.2, hc.1, hc.2.1⟩
    · simp only [Option.some.injEq, Prod.mk.injEq] at h
      left
      exact ⟨h.2.symm, h.1.symm⟩

theorem recreateInterstitial_effect (sdk : SdkPoll) (w w2 : World) (t : List SdkCall)
    (h : recreateInterstitial sdk w = some (w2, t)) :
    ∃ a, w.engine.interstitial_ad_ = some a ∧
      ((t = [] ∧ w2 = w) ∨
       (t = [SdkCall.deleteInterstitialAd a, SdkCall.newInterstitialAd w.fresh,
             SdkCall.interstitialInitialize w.fresh w.engine.parent_view_ kInterstitialAdUnit] ∧
        w2 = { engine := { w.engine with interstitial_ad_ := some w.fresh,
                                          interstitial_ad_listener_set_ := false },
               fresh := w.fresh + 1 })) := by
  unfold recreateInterstitial at h
  cases hb : w.engine.interstitial_ad_ with
  | none => simp [hb] at h
  | some a =>
    refine ⟨a, rfl, ?_⟩
    simp only [hb] at h
    split at h
    · simp only [Option.some.injEq, Prod.mk.injEq] at h
      right
      exact ⟨h.2.symm, h.1.symm⟩
    · simp only [Option.some.injEq, Prod.mk.injEq] at h
      left
      exact ⟨h.2.symm, h.1.symm⟩

end GameEngine

theorem ListenerInv.congr (w w2 : World) (tr : List SdkCall) (h : ListenerInv w tr)
    (e0 : w2.fresh = w.fresh)
    (e1 : w2.engine.banner_view_ = w.engine.banner_view_)
    (e2 : w2.engine.interstitial_ad_ = w.engine.interstitial_ad_)
    (e3 : w2.engine.banner_view_listener_set_ = w.engine.banner_view_listener_set_)
    (e4 : w2.engine.interstitial_ad_listener_set_ = w.engine.interstitial_ad_listener_set_) :
    ListenerInv w2 tr := by
  unfold ListenerInv World.allocated at *
  rw [e0, e1, e2, e3, e4]
  exact h

theorem ListenerInv.quiet (w w2 : World) (tr t : List SdkCall) (h : ListenerInv w tr)
    (e0 : w2.fresh = w.fresh)
    (e1 : w2.engine.banner_view_ = w.engine.banner_view_)
    (e2 : w2.engine.interstitial_ad_ = w.engine.interstitial_ad_)
    (e3 : w2.engine.banner_view_listener_set_ = w.engine.banner_view_listener_set_)
    (e4 : w2.engine.interstitial_ad_listener_set_ = w.engine.interstitial_ad_listener_set_)
    (hq : ∀ o, SdkCall.bannerSetListener o ∉ t ∧ SdkCall.interstitialSetListener o ∉ t) :
    ListenerInv w2 (tr ++ t) := by
  refine ListenerInv.congr w w2 (tr ++ t) ?_ e0 e1 e2 e3 e4
  refine ListenerInv.extend w w tr t h (le_refl _) h.1
    (fun o ho => absurd ho (hq o).1) (fun o ho => absurd ho (hq o).2)
    (fun o h1 h2 => ⟨(hq o).1, Or.inr ⟨h1, h2⟩⟩) (fun o h1 h2 => ⟨(hq o).2, Or.inr ⟨h1, h2⟩⟩)

namespace GameEngine

theorem stage_banner_listener (c : Bool) (sdk : SdkPoll) (w : World) (g1 : GameEngine)
    (tr t1 : List SdkCall) (hinv : ListenerInv w tr)
    (h : (if c = true then setBannerListener sdk w.engine else some (w.engine, []))
      = some (g1, t1)) :
    ListenerInv { engine := g1, fresh := w.fresh } (tr ++ t1) ∧
    (∀ o, SdkCall.bannerSetListener o ∈ t1 →
      (sdk.banner o).InitializeLastResult.completeNoError) ∧
    (∀ o, SdkCall.interstitialSetListener o ∉ t1) := by
  cases c with
  | false =>
    simp only [Bool.false_eq_true, if_false, Option.some.injEq, Prod.mk.injEq] at h
    obtain ⟨rfl, rfl⟩ := h
    refine ⟨?_, by simp, by simp⟩
    exact ListenerInv.quiet w _ tr [] hinv rfl rfl rfl rfl rfl (by simp)
  | true =>
    simp only [if_true] at h
    obtain ⟨b, hb, ⟨rfl, rfl⟩ | ⟨rfl, rfl, hflag, hok⟩⟩ := setBannerListener_effect sdk _ _ _ h
    · refine ⟨?_, by simp, by simp⟩
      exact ListenerInv.quiet w _ tr [] hinv rfl rfl rfl rfl rfl (by simp)
    · refine ⟨?_, ?_, by simp⟩
      · refine ListenerInv.extend w _ tr _ hinv (le_refl _) hinv.1 ?_ ?_ ?_ ?_
        · intro o ho
          simp only [List.mem_singleton, SdkCall.bannerSetListener.injEq] at ho
          subst ho
          refine ⟨hb, hflag, ?_⟩
          simp
        · intro o ho
          simp at ho
        · intro o _ h2
          simp at h2
        · intro o h1 h2
          exact ⟨by simp, Or.inr ⟨h1, h2⟩⟩
      · intro o ho
        simp only [List.mem_singleton, SdkCall.bannerSetListener.injEq] at ho
        subst ho
        exact hok

theorem stage_interstitial_listener (c : Bool) (sdk : SdkPoll) (w : World) (g1 : GameEngine)
    (tr t1 : List SdkCall) (hinv : ListenerInv w tr)
    (h : (if c = true then setInterstitialListener sdk w.engine else some (w.engine, []))
      = some (g1, t1)) :
    ListenerInv { engine := g1, fresh := w.fresh } (tr ++ t1) ∧
    (∀ o, SdkCall.interstitialSetListener o ∈ t1 →
      (sdk.interstitial o).InitializeLastResult.completeNoError) ∧
    (∀ o, SdkCall.bannerSetListener o ∉ t1) := by
  cases c with
  | false =>
    simp only [Bool.false_eq_true, if_false, Option.some.injEq, Prod.mk.injEq] at h
    obtain ⟨rfl, rfl⟩ := h
    refine ⟨?_, by simp, by simp⟩
    exact ListenerInv.quiet w _ tr [] hinv rfl rfl rfl rfl rfl (by simp)
  | true =>
    simp only [if_true] at h
    obtain ⟨a, hb, ⟨rfl, rfl⟩ | ⟨rfl, rfl, hflag, hok⟩⟩ :=
      setInterstitialListener_effect sdk _ _ _ h
    · refine ⟨?_, by simp, by simp⟩
      exact ListenerInv.quiet w _ tr [] hinv rfl rfl rfl rfl rfl (by simp)
    · refine ⟨?_, ?_, by simp⟩
      · refine ListenerInv.extend w _ tr _ hinv (le_refl _) hinv.1 ?_ ?_ ?_ ?_
        · intro o ho
          simp at ho
        · intro o ho
          simp only [List.mem_singleton, SdkCall.interstitialSetListener.injEq] at ho
          subst ho
          refine ⟨hb, hflag, ?_⟩
          simp
        · intro o h1 h2
          exact ⟨by simp, Or.inr ⟨h1, h2⟩⟩
        · intro o _ h2
          simp at h2
      · intro o ho
        simp only [List.mem_singleton, SdkCall.interstitialSetListener.injEq] at ho
        subst ho
        exact hok

theorem stage_recreate (c : Bool) (sdk : SdkPoll) (w w3 : World)
    (tr t3 : List SdkCall) (hinv : ListenerInv w tr)
    (h : (if c = true then recreateInterstitial sdk w else some (w, [])) = some (w3, t3)) :
    ListenerInv w3 (tr ++ t3) ∧
    (∀ o, SdkCall.bannerSetListener o ∉ t3 ∧ SdkCall.interstitialSetListener o ∉ t3) := by
  cases c with
  | false =>
    simp only [Bool.false_eq_true, if_false, Option.some.injEq, Prod.mk.injEq] at h
    obtain ⟨rfl, rfl⟩ := h
    refine ⟨?_, by simp⟩
    exact ListenerInv.quiet w _ tr [] hinv rfl rfl rfl rfl rfl (by simp)
  | true =>
    simp only [if_true] at h
    obtain ⟨a, hb, ⟨rfl, rfl⟩ | ⟨rfl, rfl⟩⟩ := recreateInterstitial_effect sdk _ _ _ h
    · refine ⟨?_, by simp⟩
      exact ListenerInv.quiet _ _ tr [] hinv rfl rfl rfl rfl rfl (by simp)
    · refine ⟨?_, by simp⟩
      refine ListenerInv.extend w _ tr _ hinv (Nat.le_succ _) ?_ ?_ ?_ ?_ ?_
      · refine ⟨fun o ho => ?_, fun o ho => ?_⟩
        · exact Nat.lt_succ_of_lt (hinv.1.1 o ho)
        · simp only [Option.some.injEq] at ho
          subst ho
          exact Nat.lt_succ_self _
      · intro o ho
        simp at ho
      · intro o ho
        simp at ho
      · intro o h1 h2
        exact ⟨by simp, Or.inr ⟨h1, h2⟩⟩
      · intro o h1 _
        simp only [Option.some.injEq] at h1
        subst h1
        exact ⟨by simp, Or.inl (le_refl _)⟩

theorem updateIntensity_fields (g : GameEngine) :
    (updateIntensity g).banner_view_ = g.banner_view_ ∧
    (updateIntensity g).interstitial_ad_ = g.interstitial_ad_ ∧
    (updateIntensity g).banner_view_listener_set_ = g.banner_view_listener_set_ ∧
    (updateIntensity g).interstitial_ad_listener_set_ = g.interstitial_ad_listener_set_ := by
  unfold updateIntensity
  dsimp only
  split_ifs <;> exact ⟨rfl, rfl, rfl, rfl⟩

theorem onUpdate_listener (cfg : Config) (sdk : SdkPoll) (w w2 : World)
    (tr t : List SdkCall) (hinv : ListenerInv w tr)
    (h : onUpdate cfg sdk w = some (w2, t)) :
    ListenerInv w2 (tr ++ t) ∧
    (∀ o, SdkCall.bannerSetListener o ∈ t →
      (sdk.banner o).InitializeLastResult.completeNoError) ∧
    (∀ o, SdkCall.interstitialSetListener o ∈ t →
      (sdk.interstitial o).InitializeLastResult.completeNoError) := by
  unfold onUpdate at h
  cases hA : (if cfg.kTestBannerView = true then setBannerListener sdk w.engine
      else some (w.engine, [])) with
  | none => simp [hA] at h
  | some r1 =>
    obtain ⟨g1, t1⟩ := r1
    simp only [hA] at h
    obtain ⟨invA, okA, quietA⟩ := stage_banner_listener _ sdk w g1 tr t1 hinv hA
    cases hB : (if cfg.kTestInterstitialAd = true then setInterstitialListener sdk g1
        else some (g1, [])) with
    | none => simp [hB] at h
    | some r2 =>
      obtain ⟨g2, t2⟩ := r2
      simp only [hB] at h
      obtain ⟨invB, okB, quietB⟩ := stage_interstitial_listener _ sdk
        { engine := g1, fresh := w.fresh } g2 (tr ++ t1) t2 invA hB
      cases hC : (if cfg.kTestInterstitialAd = true then
          recreateInterstitial sdk { engine := g2, fresh := w.fresh }
          else some ({ engine := g2, fresh := w.fresh }, [])) with
      | none => simp [hC] at h
      | some r3 =>
        obtain ⟨w3, t3⟩ := r3
        simp only [hC, Option.some.injEq, Prod.mk.injEq] at h
        obtain ⟨rfl, rfl⟩ := h
        obtain ⟨invC, quietC⟩ := stage_recreate _ sdk
          { engine := g2, fresh := w.fresh } w3 (tr ++ t1 ++ t2) t3 invB hC
        obtain ⟨f1, f2, f3, f4⟩ := updateIntensity_fields w3.engine
        refine ⟨?_, ?_, ?_⟩
        · have e : tr ++ (t1 ++ t2 ++ t3) = tr ++ t1 ++ t2 ++ t3 := by
            simp [List.append_assoc]
          rw [e]
          exact ListenerInv.congr w3 _ _ invC rfl f1 f2 f3 f4
        · intro o ho
          rcases List.mem_append.mp ho with h1 | h1
          · rcases List.mem_append.mp h1 with h2 | h2
            · exact okA o h2
            · exact absurd h2 (quietB o)
          · exact absurd h1 (quietC o).1
        · intro o ho
          rcases List.mem_append.mp ho with h1 | h1
          · rcases List.mem_append.mp h1 with h2 | h2
            · exact absurd h2 (quietA o)
            · exact okB o h2
          · exact absurd h1 (quietC o).2

theorem Initialize_proj (cfg : Config) (p : AdParent) (w : World) :
    (Initialize cfg p w).1.fresh =
      w.fresh + (if cfg.kTestBannerView = true then 1 else 0) +
        (if cfg.kTestInterstitialAd = true then 1 else 0) ∧
    (Initialize cfg p w).1.engine.banner_view_ =
      (if cfg.kTestBannerView = true then some w.fresh else w.engine.banner_view_) ∧
    (Initialize cfg p w).1.engine.interstitial_ad_ =
      (if cfg.kTestInterstitialAd = true then
        some (w.fresh + (if cfg.kTestBannerView = true then 1 else 0))
       else w.engine.interstitial_ad_) ∧
    (Initialize cfg p w).1.engine.banner_view_listener_set_ =
      (if cfg.kTestBannerView = true then false else w.engine.banner_view_listener_set_) ∧
    (Initialize cfg p w).1.engine.interstitial_ad_listener_set_ =
      (if cfg.kTestInterstitialAd = true then false
       else w.engine.interstitial_ad_listener_set_) := by
  unfold Initialize
  cases cfg.kTestBannerView <;> cases cfg.kTestInterstitialAd <;> simp

theorem Initialize_listener (cfg : Config) (p : AdParent) (w : World) (tr : List SdkCall)
    (hinv : ListenerInv w tr) :
    ListenerInv (Initialize cfg p w).1 (tr ++ (Initialize cfg p w).2) ∧
    (∀ o, SdkCall.bannerSetListener o ∉ (Initialize cfg p w).2 ∧
      SdkCall.interstitialSetListener o ∉ (Initialize cfg p w).2) := by
  have hq : ∀ o, SdkCall.bannerSetListener o ∉ (Initialize cfg p w).2 ∧
      SdkCall.interstitialSetListener o ∉ (Initialize cfg p w).2 := by
    intro o
    unfold Initialize
    cases cfg.kTestBannerView <;> cases cfg.kTestInterstitialAd <;> simp
  refine ⟨?_, hq⟩
  obtain ⟨⟨al1, al2⟩, -⟩ := id hinv
  obtain ⟨e0, e1, e2, e3, e4⟩ := Initialize_proj cfg p w
  refine ListenerInv.extend w _ tr _ hinv ?_ ?_ (fun o ho => absurd ho (hq o).1)
    (fun o ho => absurd ho (hq o).2) ?_ ?_
  · rw [e0]
    unfold ObjId at *
    omega
  · refine ⟨fun o ho => ?_, fun o ho => ?_⟩
    · rw [e1] at ho
      rw [e0]
      by_cases hB : cfg.kTestBannerView = true
      · rw [if_pos hB] at ho ⊢
        simp only [Option.some.injEq] at ho
        unfold ObjId at *
        omega
      · rw [if_neg hB] at ho ⊢
        have := al1 o ho
        unfold ObjId at *
        omega
    · rw [e2] at ho
      rw [e0]
      by_cases hI : cfg.kTestInterstitialAd = true
      · rw [if_pos hI] at ho
        rw [if_pos hI]
        simp only [Option.some.injEq] at ho
        unfold ObjId at *
        omega
      · rw [if_neg hI] at ho
        rw [if_neg hI]
        have := al2 o ho
        unfold ObjId at *
        omega
  · intro o h1 h2
    refine ⟨(hq o).1, ?_⟩
    rw [e1] at h1
    rw [e3] at h2
    by_cases hB : cfg.kTestBannerView = true
    · rw [if_pos hB] at h1
      simp only [Option.some.injEq] at h1
      exact Or.inl (le_of_eq h1)
    · rw [if_neg hB] at h1 h2
      exact Or.inr ⟨h1, h2⟩
  · intro o h1 h2
    refine ⟨(hq o).2, ?_⟩
    rw [e2] at h1
    rw [e4] at h2
    by_cases hI : cfg.kTestInterstitialAd = true
    · rw [if_pos hI] at h1
      simp only [Option.some.injEq] at h1
      left
      unfold ObjId at *
      omega
    · rw [if_neg hI] at h1 h2
      exact Or.inr ⟨h1, h2⟩

end GameEngine

theorem step_listener (cfg : Config) (w w2 : World) (c : Call) (tr t : List SdkCall)
    (hinv : ListenerInv w tr) (h : step cfg w c = some (w2, t)) :
    ListenerInv w2 (tr ++ t) ∧
    (∀ o, SdkCall.bannerSetListener o ∈ t →
      ∃ sdk, c = Call.onUpdate sdk ∧ (sdk.banner o).InitializeLastResult.completeNoError) ∧
    (∀ o, SdkCall.interstitialSetListener o ∈ t →
      ∃ sdk, c = Call.onUpdate sdk ∧
        (sdk.interstitial o).InitializeLastResult.completeNoError) := by
  cases c with
  | Initialize p =>
    simp only [step, Option.some.injEq] at h
    obtain ⟨h1, h2⟩ := GameEngine.Initialize_listener cfg p w tr hinv
    rw [h] at h1 h2
    exact ⟨h1, fun o ho => absurd ho (h2 o).1, fun o ho => absurd ho (h2 o).2⟩
  | onUpdate sdk =>
    simp only [step] at h
    obtain ⟨h1, h2, h3⟩ := GameEngine.onUpdate_listener cfg sdk w w2 tr t hinv h
    exact ⟨h1, fun o ho => ⟨sdk, rfl, h2 o ho⟩, fun o ho => ⟨sdk, rfl, h3 o ho⟩⟩
  | onTap sdk x y =>
    simp only [step] at h
    cases hd : GameEngine.onTap cfg sdk w.engine x y with
    | none => simp [hd] at h
    | some r =>
      obtain ⟨g, t2⟩ := r
      simp only [hd, Option.some.injEq, Prod.mk.injEq] at h
      obtain ⟨rfl, rfl⟩ := h
      have hg : g = w.engine := GameEngine.dispatch_engine cfg sdk w.engine g _ t2 hd
      subst hg
      have hq : ∀ o, SdkCall.bannerSetListener o ∉ t2 ∧
          SdkCall.interstitialSetListener o ∉ t2 := by
        intro o
        refine ⟨fun hm => ?_, fun hm => ?_⟩
        · exact ((GameEngine.dispatch_guards cfg sdk w.engine _ _ t2 hd _ hm).2.2.2.2.2.2.2
            o).1 rfl
        · exact ((GameEngine.dispatch_guards cfg sdk w.engine _ _ t2 hd _ hm).2.2.2.2.2.2.2
            o).2 rfl
      exact ⟨ListenerInv.quiet w _ tr t2 hinv rfl rfl rfl rfl rfl hq,
        fun o ho => absurd ho (hq o).1, fun o ho => absurd ho (hq o).2⟩
  | onSurfaceChanged width height =>
    simp only [step, Option.some.injEq, Prod.mk.injEq] at h
    obtain ⟨rfl, rfl⟩ := h
    exact ⟨ListenerInv.quiet w _ tr [] hinv rfl rfl rfl rfl rfl (by simp),
      by simp, by simp⟩

theorem run_listener (cfg : Config) (calls : List Call) :
    ∀ (w w2 : World) (pre : List SdkCall) (tr : List (Call × SdkCall)),
      ListenerInv w pre → run cfg w calls = some (w2, tr) →
      ListenerInv w2 (pre ++ tr.map Prod.snd) ∧
      (∀ c o, (c, SdkCall.bannerSetListener o) ∈ tr →
        ∃ sdk, c = Call.onUpdate sdk ∧
          (sdk.banner o).InitializeLastResult.completeNoError) ∧
      (∀ c o, (c, SdkCall.interstitialSetListener o) ∈ tr →
        ∃ sdk, c = Call.onUpdate sdk ∧
          (sdk.interstitial o).InitializeLastResult.completeNoError) := by
  induction calls with
  | nil =>
    intro w w2 pre tr hinv h
    simp only [run, Option.some.injEq, Prod.mk.injEq] at h
    obtain ⟨rfl, rfl⟩ := h
    simpa using hinv
  | cons c cs ih =>
    intro w w2 pre tr hinv h
    simp only [run] at h
    cases hs : step cfg w c with
    | none => simp [hs] at h
    | some r =>
      obtain ⟨w1, t⟩ := r
      simp only [hs] at h
      cases hr : run cfg w1 cs with
      | none => simp [hr] at h
      | some r2 =>
        obtain ⟨w3, tr2⟩ := r2
        simp only [hr, Option.some.injEq, Prod.mk.injEq] at h
        obtain ⟨rfl, rfl⟩ := h
        obtain ⟨s1, s2, s3⟩ := step_listener cfg w w1 c pre t hinv hs
        obtain ⟨r1, r2, r3⟩ := ih w1 w3 (pre ++ t) tr2 s1 hr
        refine ⟨?_, ?_, ?_⟩
        · have e : pre ++ List.map Prod.snd (List.map (fun k => (c, k)) t ++ tr2)
              = pre ++ t ++ List.map Prod.snd tr2 := by
            simp [List.map_append, List.map_map, Function.comp_def]
          rw [e]
          exact r1
        · intro c2 o hm
          rcases List.mem_append.mp hm with h1 | h1
          · obtain ⟨k, hk, e⟩ := List.mem_map.mp h1
            simp only [Prod.mk.injEq] at e
            obtain ⟨rfl, rfl⟩ := e
            exact s2 o hk
          · exact r2 c2 o h1
        · intro c2 o hm
          rcases List.mem_append.mp hm with h1 | h1
          · obtain ⟨k, hk, e⟩ := List.mem_map.mp h1
            simp only [Prod.mk.injEq] at e
            obtain ⟨rfl, rfl⟩ := e
            exact s3 o hk
          · exact r3 c2 o h1

theorem ListenerInv.start (w : World) (h : w.allocated) : ListenerInv w [] := by
  refine ⟨h, ?_, ?_, ?_, ?_, ?_, ?_⟩ <;> simp

namespace GameEngine

theorem dispatch_total (cfg : Config) (sdk : SdkPoll) (g : GameEngine) (n : Int)
    (hb : cfg.kTestBannerView = true → ∃ b, g.banner_view_ = some b)
    (ha : cfg.kTestInterstitialAd = true → ∃ a, g.interstitial_ad_ = some a) :
    ∃ t, dispatch cfg sdk g n = some (g, t) := by
  unfold dispatch
  cases hB : cfg.kTestBannerView <;> cases hI : cfg.kTestInterstitialAd
  · simp
  · obtain ⟨a, ha2⟩ := ha hI
    simp only [ha2, Bool.false_eq_true, if_false, if_true]
    split_ifs <;> simp
  · obtain ⟨b, hb2⟩ := hb hB
    simp only [hb2, Bool.false_eq_true, if_false, if_true]
    split_ifs <;> simp
  · obtain ⟨a, ha2⟩ := ha hI
    obtain ⟨b, hb2⟩ := hb hB
    simp only [ha2, hb2, if_true]
    split_ifs <;> simp

theorem stage_banner_total (c : Bool) (sdk : SdkPoll) (g : GameEngine)
    (hb : c = true → ∃ b, g.banner_view_ = some b) :
    ∃ g2 t, (if c = true then setBannerListener sdk g else some (g, [])) = some (g2, t) ∧
      g2.banner_view_ = g.banner_view_ ∧ g2.interstitial_ad_ = g.interstitial_ad_ := by
  cases c with
  | false => exact ⟨g, [], by simp, rfl, rfl⟩
  | true =>
    obtain ⟨b, hb2⟩ := hb rfl
    unfold setBannerListener
    simp only [hb2, if_true]
    split_ifs
    · exact ⟨_, _, rfl, rfl, rfl⟩
    · exact ⟨_, _, rfl, hb2, rfl⟩

theorem stage_interstitial_total (c : Bool) (sdk : SdkPoll) (g : GameEngine)
    (ha : c = true → ∃ a, g.interstitial_ad_ = some a) :
    ∃ g2 t, (if c = true then setInterstitialListener sdk g else some (g, [])) = some (g2, t) ∧
      g2.banner_view_ = g.banner_view_ ∧ g2.interstitial_ad_ = g.interstitial_ad_ := by
  cases c with
  | false => exact ⟨g, [], by simp, rfl, rfl⟩
  | true =>
    obtain ⟨a, ha2⟩ := ha rfl
    unfold setInterstitialListener
    simp only [ha2, if_true]
    split_ifs
    · exact ⟨_, _, rfl, rfl, rfl⟩
    · exact ⟨_, _, rfl, rfl, ha2⟩

theorem stage_recreate_total (c : Bool) (sdk : SdkPoll) (w : World)
    (ha : c = true → ∃ a, w.engine.interstitial_ad_ = some a) :
    ∃ w3 t, (if c = true then recreateInterstitial sdk w else some (w, [])) = some (w3, t) ∧
      w3.engine.banner_view_ = w.engine.banner_view_ ∧
      (c = true → ∃ a, w3.engine.interstitial_ad_ = some a) := by
  cases c with
  | false => exact ⟨w, [], by simp, rfl, by simp⟩
  | true =>
    obtain ⟨a, ha2⟩ := ha rfl
    unfold recreateInterstitial
    simp only [ha2, if_true]
    split_ifs
    · exact ⟨_, _, rfl, rfl, fun _ => ⟨_, rfl⟩⟩
    · exact ⟨_, _, rfl, rfl, fun _ => ⟨a, ha2⟩⟩

theorem onUpdate_total (cfg : Config) (sdk : SdkPoll) (w : World)
    (hb : cfg.kTestBannerView = true → ∃ b, w.engine.banner_view_ = some b)
    (ha : cfg.kTestInterstitialAd = true → ∃ a, w.engine.interstitial_ad_ = some a) :
    ∃ w2 t, onUpdate cfg sdk w = some (w2, t) ∧
      (cfg.kTestBannerView = true → ∃ b, w2.engine.banner_view_ = some b) ∧
      (cfg.kTestInterstitialAd = true → ∃ a, w2.engine.interstitial_ad_ = some a) := by
  obtain ⟨g1, t1, e1, b1, a1⟩ := stage_banner_total cfg.kTestBannerView sdk w.engine hb
  obtain ⟨g2, t2, e2, b2, a2⟩ := stage_interstitial_total cfg.kTestInterstitialAd sdk g1
    (by rw [a1]; exact ha)
  obtain ⟨w3, t3, e3, b3, a3⟩ := stage_recreate_total cfg.kTestInterstitialAd sdk
    { engine := g2, fresh := w.fresh } (by rw [a2, a1]; exact ha)
  refine ⟨{ w3 with engine := updateIntensity w3.engine }, t1 ++ t2 ++ t3, ?_, ?_, ?_⟩
  · unfold onUpdate
    simp only [e1, e2, e3]
  · intro h
    rw [(updateIntensity_fields _).1, b3, b2, b1]
    exact hb h
  · intro h
    rw [(updateIntensity_fields _).2.1]
    exact a3 h

end GameEngine

theorem step_total (cfg : Config) (w : World) (c : Call)
    (hb : cfg.kTestBannerView = true → ∃ b, w.engine.banner_view_ = some b)
    (ha : cfg.kTestInterstitialAd = true → ∃ a, w.engine.interstitial_ad_ = some a) :
    ∃ w2 t, step cfg w c = some (w2, t) ∧
      (cfg.kTestBannerView = true → ∃ b, w2.engine.banner_view_ = some b) ∧
      (cfg.kTestInterstitialAd = true → ∃ a, w2.engine.interstitial_ad_ = some a) := by
  cases c with
  | Initialize p =>
    obtain ⟨-, e1, e2, -, -⟩ := GameEngine.Initialize_proj cfg p w
    refine ⟨(GameEngine.Initialize cfg p w).1, (GameEngine.Initialize cfg p w).2, rfl,
      fun h => ?_, fun h => ?_⟩
    · rw [e1, if_pos h]
      exact ⟨_, rfl⟩
    · rw [e2, if_pos h]
      exact ⟨_, rfl⟩
  | onUpdate sdk => exact GameEngine.onUpdate_total cfg sdk w hb ha
  | onTap sdk x y =>
    obtain ⟨t, ht⟩ := GameEngine.dispatch_total cfg sdk w.engine
      (GameEngine.hitTest cfg w.engine x y) hb ha
    refine ⟨w, t, ?_, hb, ha⟩
    simp only [step, GameEngine.onTap, ht]
  | onSurfaceChanged width height =>
    exact ⟨_, _, rfl, hb, ha⟩

theorem run_total (cfg : Config) (calls : List Call) :
    ∀ w : World,
      (cfg.kTestBannerView = true → ∃ b, w.engine.banner_view_ = some b) →
      (cfg.kTestInterstitialAd = true → ∃ a, w.engine.interstitial_ad_ = some a) →
      ∃ w2 tr, run cfg w calls = some (w2, tr) := by
  induction calls with
  | nil => intro w _ _; exact ⟨w, [], rfl⟩
  | cons c cs ih =>
    intro w hb ha
    obtain ⟨w1, t, e, hb1, ha1⟩ := step_total cfg w c hb ha
    obtain ⟨w2, tr, e2⟩ := ih w1 hb1 ha1
    exact ⟨w2, List.map (fun k => (c, k)) t ++ tr, by simp only [run, e, e2]⟩

theorem run_after_Initialize (cfg : Config) (w : World) (p : AdParent) (calls : List Call) :
    ∃ w2 tr, run cfg w (Call.Initialize p :: calls) = some (w2, tr) := by
  obtain ⟨-, e1, e2, -, -⟩ := GameEngine.Initialize_proj cfg p w
  obtain ⟨w2, tr, e⟩ := run_total cfg calls (GameEngine.Initialize cfg p w).1
    (fun h => by rw [e1, if_pos h]; exact ⟨_, rfl⟩)
    (fun h => by rw [e2, if_pos h]; exact ⟨_, rfl⟩)
  exact ⟨w2, List.map (fun k => (Call.Initialize p, k)) (GameEngine.Initialize cfg p w).2 ++ tr,
    by simp only [run, step, e]⟩

/-- C10: over every sequence of `Initialize`, `onUpdate`, `onTap` (and `onSurfaceChanged`)
calls with arbitrary polled SDK results, started with ad objects given out by the allocator
(or none), `SetListener` is invoked at most once on each banner view and on each
interstitial ad; it is invoked only by an `onUpdate` during which that object's
`InitializeLastResult` is complete with error none; and once it has been invoked for an
object, a later `onUpdate` does not set that object's listener again. A sequence that begins
with `Initialize` runs to its end. -/
theorem listener_attached_once (cfg : Config) (w : World) (hw : w.allocated)
    (calls : List Call) :
    (∀ p, ∃ w2 tr, run cfg w (Call.Initialize p :: calls) = some (w2, tr)) ∧
    (∀ w2 tr, run cfg w calls = some (w2, tr) →
      (∀ o, (tr.map Prod.snd).count (SdkCall.bannerSetListener o) ≤ 1 ∧
        (tr.map Prod.snd).count (SdkCall.interstitialSetListener o) ≤ 1) ∧
      (∀ c o, (c, SdkCall.bannerSetListener o) ∈ tr →
        ∃ sdk, c = Call.onUpdate sdk ∧
          (sdk.banner o).InitializeLastResult.completeNoError) ∧
      (∀ c o, (c, SdkCall.interstitialSetListener o) ∈ tr →
        ∃ sdk, c = Call.onUpdate sdk ∧
          (sdk.interstitial o).InitializeLastResult.completeNoError) ∧
      (∀ sdk w3 t, GameEngine.onUpdate cfg sdk w2 = some (w3, t) →
        ∀ o, (SdkCall.bannerSetListener o ∈ tr.map Prod.snd →
                SdkCall.bannerSetListener o ∉ t) ∧
             (SdkCall.interstitialSetListener o ∈ tr.map Prod.snd →
                SdkCall.interstitialSetListener o ∉ t))) := by
  refine ⟨fun p => run_after_Initialize cfg w p calls, ?_⟩
  intro w2 tr h
  obtain ⟨inv, okB, okA⟩ := run_listener cfg calls w w2 [] tr (ListenerInv.start w hw) h
  rw [List.nil_append] at inv
  refine ⟨fun o => ⟨inv.2.2.2.2.2.1 o, inv.2.2.2.2.2.2 o⟩, okB, okA, ?_⟩
  intro sdk w3 t hu o
  obtain ⟨inv2, -, -⟩ := GameEngine.onUpdate_listener cfg sdk w2 w3 _ t inv hu
  refine ⟨fun hm hn => ?_, fun hm hn => ?_⟩
  · have c1 := inv2.2.2.2.2.2.1 o
    rw [List.count_append] at c1
    have c2 : 0 < (tr.map Prod.snd).count (SdkCall.bannerSetListener o) :=
      List.count_pos_iff.mpr hm
    have c3 : 0 < t.count (SdkCall.bannerSetListener o) := List.count_pos_iff.mpr hn
    omega
  · have c1 := inv2.2.2.2.2.2.2 o
    rw [List.count_append] at c1
    have c2 : 0 < (tr.map Prod.snd).count (SdkCall.interstitialSetListener o) :=
      List.count_pos_iff.mpr hm
    have c3 : 0 < t.count (SdkCall.interstitialSetListener o) := List.count_pos_iff.mpr hn
    omega

/-- After `Initialize` and two `onUpdate` calls that both see the ad objects initialized,
the listener of banner view 0 has been set, and only once. -/
theorem listener_attached_once_witness :
    ∃ w2 tr,
      run sampleConfig sampleWorld
        [Call.Initialize 0, Call.onUpdate failedReloadSdk, Call.onUpdate failedReloadSdk]
        = some (w2, tr) ∧
      SdkCall.bannerSetListener 0 ∈ tr.map Prod.snd ∧
      ∀ o, (tr.map Prod.snd).count (SdkCall.bannerSetListener o) ≤ 1 ∧
        (tr.map Prod.snd).count (SdkCall.interstitialSetListener o) ≤ 1 := by
  have hw : sampleWorld.allocated :=
    ⟨fun o h => by simp [sampleWorld, sampleEngine] at h,
     fun o h => by simp [sampleWorld, sampleEngine] at h⟩
  obtain ⟨w2, tr, h⟩ := (listener_attached_once sampleConfig sampleWorld hw
    [Call.onUpdate failedReloadSdk, Call.onUpdate failedReloadSdk]).1 0
  have e : (run sampleConfig sampleWorld
      [Call.Initialize 0, Call.onUpdate failedReloadSdk, Call.onUpdate failedReloadSdk]).map
      (fun r => r.2.map Prod.snd)
      = some [SdkCall.gmaInitialize kAdMobAppID, SdkCall.newBannerView 0,
          SdkCall.bannerInitialize 0 0 kBannerAdUnit 320 50, SdkCall.newInterstitialAd 1,
          SdkCall.interstitialInitialize 1 0 kInterstitialAdUnit,
          SdkCall.bannerSetListener 0, SdkCall.interstitialSetListener 1] := by
    simp [run, step, GameEngine.onUpdate, GameEngine.Initialize, GameEngine.setBannerListener,
      GameEngine.setInterstitialListener, GameEngine.recreateInterstitial, sampleConfig,
      sampleWorld, sampleEngine, failedReloadSdk, GameEngine.updateIntensity_fields]
  rw [h] at e
  simp only [Option.map_some', Option.some.injEq] at e
  refine ⟨w2, tr, h, ?_, ((listener_attached_once sampleConfig sampleWorld hw
    [Call.Initialize 0, Call.onUpdate failedReloadSdk, Call.onUpdate failedReloadSdk]).2
    w2 tr h).1⟩
  rw [e]
  simp

/-! ## Animation in binary32 -/

namespace Binary32

theorem intensityOf_updateIntensity (g : GameEngine) :
    intensityOf (updateIntensity g) = tick (intensityOf g) := by
  unfold tick updateIntensity intensityOf engineOf
  dsimp only
  split_ifs <;> rfl

theorem intensityOf_iterate (g : GameEngine) (n : Nat) :
    intensityOf (updateIntensity^[n] g) = tick^[n] (intensityOf g) := by
  induction n with
  | zero => rfl
  | succ n ih =>
    rw [Function.iterate_succ_apply', Function.iterate_succ_apply', intensityOf_updateIntensity,
      ih]

theorem ticksAll_spec (P : Fp × Bool → Bool) (n : Nat) :
    ∀ s, ticksAll P n s = true → ∀ k, k < n → P (tick^[k] s) = true := by
  induction n with
  | zero => intro s _ k hk; omega
  | succ n ih =>
    intro s h k hk
    simp only [ticksAll, Bool.and_eq_true] at h
    cases k with
    | zero => exact h.1
    | succ k =>
      rw [Function.iterate_succ_apply]
      exact ih (tick s) h.2 k (by omega)

theorem orbit_101 :
    tick^[101] (Fp.finite 0, true) = (Fp.finite (8472489 / 33554432), true) := by
  decide!

theorem orbit_160 : tick^[160] (Fp.finite 0, true) = (Fp.finite (13421763 / 33554432), true) := by
  have h : tick^[59] (Fp.finite (8472489 / 33554432), true)
      = (Fp.finite (13421763 / 33554432), true) := by decide!
  rw [show 160 = 59 + 101 from rfl, Function.iterate_add_apply, orbit_101, h]

theorem orbit_161 :
    tick^[161] (Fp.finite 0, true) = (Fp.finite (13505649 / 33554432), false) := by
  have h : tick (Fp.finite (13421763 / 33554432), true)
      = (Fp.finite (13505649 / 33554432), false) := by decide!
  rw [Function.iterate_succ_apply', orbit_160, h]

theorem orbit_320 :
    tick^[320] (Fp.finite 0, true) = (Fp.finite (5368729 / 1073741824), false) := by
  have h : tick^[159] (Fp.finite (13505649 / 33554432), false)
      = (Fp.finite (5368729 / 1073741824), false) := by decide!
  rw [show 320 = 159 + 161 from rfl, Function.iterate_add_apply, orbit_161, h]

theorem orbit_323 :
    tick^[323] (Fp.finite 0, true) = (Fp.finite (-5368669 / 2147483648), true) := by
  have h : tick^[3] (Fp.finite (5368729 / 1073741824), false)
      = (Fp.finite (-5368669 / 2147483648), true) := by decide!
  rw [show 323 = 3 + 320 from rfl, Function.iterate_add_apply, orbit_320, h]

theorem orbit_324 : tick^[324] (Fp.finite 0, true) = (Fp.finite (5 / 268435456), true) := by
  have h : tick (Fp.finite (-5368669 / 2147483648), true)
      = (Fp.finite (5 / 268435456), true) := by decide!
  rw [Function.iterate_succ_apply', orbit_323, h]

theorem orbit_425 : tick^[425] (Fp.finite 0, true) = tick^[101] (Fp.finite 0, true) := by
  have h : tick^[101] (Fp.finite (5 / 268435456), true)
      = (Fp.finite (8472489 / 33554432), true) := by decide!
  rw [show 425 = 101 + 324 from rfl, Function.iterate_add_apply, orbit_324, h, orbit_101]

theorem orbit_periodic (n : Nat) (hn : 101 ≤ n) :
    tick^[n + 324] (Fp.finite 0, true) = tick^[n] (Fp.finite 0, true) := by
  obtain ⟨m, rfl⟩ : ∃ m, n = m + 101 := ⟨n - 101, by omega⟩
  rw [show m + 101 + 324 = m + 425 from rfl, Function.iterate_add_apply, orbit_425,
    ← Function.iterate_add_apply]

theorem orbit_reduce (n : Nat) :
    ∃ k, k < 425 ∧ (n = k ∨ (425 ≤ n ∧ 101 ≤ k)) ∧
      tick^[n] (Fp.finite 0, true) = tick^[k] (Fp.finite 0, true) := by
  induction n using Nat.strong_induction_on with
  | _ n ih =>
    by_cases h : n < 425
    · exact ⟨n, h, Or.inl rfl, rfl⟩
    · obtain ⟨k, hk, hc, e⟩ := ih (n - 324) (by omega)
      refine ⟨k, hk, Or.inr ⟨by omega, by omega⟩, ?_⟩
      have hp := orbit_periodic (n - 324) (by omega)
      rw [show n - 324 + 324 = n by omega] at hp
      rw [hp, e]

theorem orbit_climb :
    ticksAll (fun s => s.2 && decide (Fp.lt s.1 (f32 0.4))) 161 (Fp.finite 0, true) = true := by
  decide!

theorem orbit_descent :
    ticksAll (fun s => !s.2 && decide (Fp.lt (f32 0.0) s.1)) 162
      (Fp.finite (13505649 / 33554432), false) = true := by
  decide!

theorem orbit_bounds :
    ticksAll (fun s => decide (Fp.le (Fp.finite (-5368669 / 2147483648)) s.1) &&
        decide (Fp.le s.1 (Fp.finite (13505649 / 33554432))) &&
        decide (s ≠ (Fp.finite 0, true))) 424
      (Fp.finite (5368709 / 2147483648), true) = true := by
  decide!

theorem orbit_1 :
    tick (Fp.finite 0, true) = (Fp.finite (5368709 / 2147483648), true) := by
  decide!

end Binary32

/-! ## Rounding -/

theorem bitLength_zero (fuel : Nat) : bitLength fuel 0 = 0 := by
  cases fuel <;> simp [bitLength]

theorem bitLength_spec (fuel : Nat) :
    ∀ n, n ≤ fuel → n ≠ 0 →
      1 ≤ bitLength fuel n ∧ 2 ^ (bitLength fuel n - 1) ≤ n ∧ n < 2 ^ bitLength fuel n := by
  induction fuel with
  | zero => intro n h1 h2; omega
  | succ fuel ih =>
    intro n h1 h2
    simp only [bitLength, if_neg h2]
    by_cases h : n / 2 = 0
    · rw [h, bitLength_zero]
      have : n = 1 := by omega
      subst this
      simp
    · obtain ⟨a, b, c⟩ := ih (n / 2) (by omega) h
      refine ⟨by omega, ?_, ?_⟩
      · rw [Nat.add_sub_cancel]
        have : 2 ^ bitLength fuel (n / 2) = 2 * 2 ^ (bitLength fuel (n / 2) - 1) := by
          rw [← pow_succ']
          congr 1
          omega
        omega
      · rw [pow_succ]
        omega

theorem floorLog2_spec (n d : Nat) (hn : n ≠ 0) (hd : d ≠ 0) :
    (2 : ℚ) ^ floorLog2 n d * d ≤ n ∧ (n : ℚ) < (2 : ℚ) ^ (floorLog2 n d + 1) * d := by
  obtain ⟨a1, a2, a3⟩ := bitLength_spec n n (le_refl _) hn
  obtain ⟨b1, b2, b3⟩ := bitLength_spec d d (le_refl _) hd
  set a := bitLength n n with ha
  set b := bitLength d d with hb
  have two : (2 : ℚ) ≠ 0 := by norm_num
  have hn1 : (2 : ℚ) ^ ((a : ℤ) - 1) ≤ n := by
    have : ((2 ^ (a - 1) : ℕ) : ℚ) ≤ n := by exact_mod_cast a2
    rw [show (a : ℤ) - 1 = ((a - 1 : ℕ) : ℤ) by omega, zpow_natCast]
    exact_mod_cast a2
  have hn2 : (n : ℚ) < (2 : ℚ) ^ (a : ℤ) := by
    rw [zpow_natCast]
    exact_mod_cast a3
  have hd1 : (2 : ℚ) ^ ((b : ℤ) - 1) ≤ d := by
    rw [show (b : ℤ) - 1 = ((b - 1 : ℕ) : ℤ) by omega, zpow_natCast]
    exact_mod_cast b2
  have hd2 : (d : ℚ) < (2 : ℚ) ^ (b : ℤ) := by
    rw [zpow_natCast]
    exact_mod_cast b3
  have hdpos : (0 : ℚ) < d := by
    have : 0 < d := Nat.pos_of_ne_zero hd
    exact_mod_cast this
  have hlow : (2 : ℚ) ^ ((a : ℤ) - (b : ℤ) - 1) * d < n := by
    calc (2 : ℚ) ^ ((a : ℤ) - (b : ℤ) - 1) * d
        < (2 : ℚ) ^ ((a : ℤ) - (b : ℤ) - 1) * (2 : ℚ) ^ (b : ℤ) :=
          mul_lt_mul_of_pos_left hd2 (zpow_pos (by norm_num) _)
      _ = (2 : ℚ) ^ ((a : ℤ) - 1) := by
          rw [← zpow_add₀ two]
          congr 1
          ring
      _ ≤ n := hn1
  have hhigh : (n : ℚ) < (2 : ℚ) ^ ((a : ℤ) - (b : ℤ) + 1) * d := by
    calc (n : ℚ) < (2 : ℚ) ^ (a : ℤ) := hn2
      _ = (2 : ℚ) ^ ((a : ℤ) - (b : ℤ) + 1) * (2 : ℚ) ^ ((b : ℤ) - 1) := by
          rw [← zpow_add₀ two]
          congr 1
          ring
      _ ≤ (2 : ℚ) ^ ((a : ℤ) - (b : ℤ) + 1) * d :=
          mul_le_mul_of_nonneg_left hd1 (le_of_lt (zpow_pos (by norm_num) _))
  have htest : (if 0 ≤ (a : ℤ) - (b : ℤ) then d * 2 ^ ((a : ℤ) - (b : ℤ)).toNat ≤ n
      else d ≤ n * 2 ^ (-((a : ℤ) - (b : ℤ))).toNat) ↔
      (2 : ℚ) ^ ((a : ℤ) - (b : ℤ)) * d ≤ n := by
    by_cases hk : 0 ≤ (a : ℤ) - (b : ℤ)
    · rw [if_pos hk]
      obtain ⟨m, hm⟩ := Int.eq_ofNat_of_zero_le hk
      rw [hm, Int.toNat_natCast, zpow_natCast]
      constructor
      · intro h
        have : ((d * 2 ^ m : ℕ) : ℚ) ≤ n := by exact_mod_cast h
        push_cast at this
        linarith
      · intro h
        have : ((d * 2 ^ m : ℕ) : ℚ) ≤ n := by
          push_cast
          linarith
        exact_mod_cast this
    · rw [if_neg hk]
      obtain ⟨m, hm⟩ := Int.eq_ofNat_of_zero_le (show 0 ≤ -((a : ℤ) - (b : ℤ)) by omega)
      rw [hm, Int.toNat_natCast]
      have e : (a : ℤ) - (b : ℤ) = -(m : ℤ) := by omega
      rw [e, zpow_neg, zpow_natCast]
      have hpos : (0 : ℚ) < (2 : ℚ) ^ m := pow_pos (by norm_num) _
      constructor
      · intro h
        have h2 : ((d : ℕ) : ℚ) ≤ ((n * 2 ^ m : ℕ) : ℚ) := by exact_mod_cast h
        push_cast at h2
        rw [inv_mul_le_iff₀ hpos]
        linarith
      · intro h
        rw [inv_mul_le_iff₀ hpos] at h
        have h2 : ((d : ℕ) : ℚ) ≤ ((n * 2 ^ m : ℕ) : ℚ) := by
          push_cast
          linarith
        exact_mod_cast h2
  unfold floorLog2
  simp only [← ha, ← hb]
  by_cases hT : (if 0 ≤ (a : ℤ) - (b : ℤ) then d * 2 ^ ((a : ℤ) - (b : ℤ)).toNat ≤ n
      else d ≤ n * 2 ^ (-((a : ℤ) - (b : ℤ))).toNat)
  · rw [if_pos hT]
    exact ⟨htest.mp hT, hhigh⟩
  · rw [if_neg hT]
    refine ⟨le_of_lt hlow, ?_⟩
    rw [sub_add_cancel]
    exact not_le.mp (fun h => hT (htest.mpr h))

theorem ratLog_spec (q : ℚ) (hq : q ≠ 0) :
    (2 : ℚ) ^ floorLog2 q.num.natAbs q.den ≤ |q| ∧
    |q| < (2 : ℚ) ^ (floorLog2 q.num.natAbs q.den + 1) := by
  have hnum : q.num.natAbs ≠ 0 := by
    rw [Ne, Int.natAbs_eq_zero, Rat.num_eq_zero]
    exact hq
  obtain ⟨h1, h2⟩ := floorLog2_spec q.num.natAbs q.den hnum q.den_nz
  have hden : (0 : ℚ) < q.den := by exact_mod_cast q.den_pos
  have habs : |q| = (q.num.natAbs : ℚ) / q.den := by
    conv_lhs => rw [← Rat.num_div_den q]
    rw [abs_div, Nat.cast_natAbs, abs_of_pos hden]
    simp
  rw [habs]
  exact ⟨(le_div_iff₀ hden).mpr h1, (div_lt_iff₀ hden).mpr h2⟩

theorem rne_cases (x : ℚ) : rne x = ⌊x⌋ ∨ rne x = ⌊x⌋ + 1 := by
  unfold rne
  dsimp only
  split_ifs <;> simp

theorem rne_intCast (k : Int) : rne (k : ℚ) = k := by
  unfold rne
  simp

theorem rne_mono (x y : ℚ) (h : x ≤ y) : rne x ≤ rne y := by
  have hf : ⌊x⌋ ≤ ⌊y⌋ := Int.floor_mono h
  rcases lt_or_eq_of_le hf with hlt | heq
  · have h1 : rne x ≤ ⌊x⌋ + 1 := by
      rcases rne_cases x with e | e <;> omega
    have h2 : ⌊y⌋ ≤ rne y := by
      rcases rne_cases y with e | e <;> omega
    omega
  · have hr : x - ⌊x⌋ ≤ y - ⌊y⌋ := by
      rw [heq]
      linarith
    unfold rne
    dsimp only
    rw [← heq] at hr ⊢
    rw [heq] at hr
    rw [heq]
    split_ifs <;> first | omega | (exfalso; linarith)

theorem rne_le_of_le (x : ℚ) (k : Int) (h : x ≤ k) : rne x ≤ k := by
  have := rne_mono x k h
  rwa [rne_intCast] at this

theorem le_rne_of_le (x : ℚ) (k : Int) (h : (k : ℚ) ≤ x) : k ≤ rne x := by
  have := rne_mono k x h
  rwa [rne_intCast] at this

theorem roundTo_of_ne (fmt : Format) (q : ℚ) (h : q ≠ 0) :
    roundTo fmt q = (rne (q / (2 : ℚ) ^ ulpExponent fmt q) : ℚ) * (2 : ℚ) ^ ulpExponent fmt q := by
  unfold roundTo
  rw [if_neg h]

theorem roundTo_zero (fmt : Format) : roundTo fmt 0 = 0 := by
  unfold roundTo
  rw [if_pos rfl]

theorem abs_lt_top (fmt : Format) (q : ℚ) (hq : q ≠ 0) :
    |q| < (2 : ℚ) ^ (ulpExponent fmt q + (fmt.prec : ℤ)) := by
  obtain ⟨-, h2⟩ := ratLog_spec q hq
  refine lt_of_lt_of_le h2 (zpow_le_zpow_right₀ (by norm_num) ?_)
  have : floorLog2 q.num.natAbs q.den - ((fmt.prec : ℤ) - 1) ≤ ulpExponent fmt q :=
    le_max_left _ _
  omega

theorem le_abs_of_above (fmt : Format) (q : ℚ) (hq : q ≠ 0)
    (he : fmt.emin < ulpExponent fmt q) :
    (2 : ℚ) ^ (ulpExponent fmt q + (fmt.prec : ℤ) - 1) ≤ |q| := by
  obtain ⟨h1, -⟩ := ratLog_spec q hq
  have e : ulpExponent fmt q = floorLog2 q.num.natAbs q.den - ((fmt.prec : ℤ) - 1) := by
    unfold ulpExponent at he ⊢
    rcases max_cases (floorLog2 q.num.natAbs q.den - ((fmt.prec : ℤ) - 1)) fmt.emin with
      ⟨h, -⟩ | ⟨h, -⟩
    · exact h
    · rw [h] at he
      exact absurd he (lt_irrefl _)
  rw [show ulpExponent fmt q + (fmt.prec : ℤ) - 1 = floorLog2 q.num.natAbs q.den by omega]
  exact h1

theorem ulpExponent_mono (fmt : Format) (a b : ℚ) (ha : a ≠ 0) (hb : b ≠ 0)
    (h : |a| ≤ |b|) : ulpExponent fmt a ≤ ulpExponent fmt b := by
  obtain ⟨a1, -⟩ := ratLog_spec a ha
  obtain ⟨-, b2⟩ := ratLog_spec b hb
  have hlt : (2 : ℚ) ^ floorLog2 a.num.natAbs a.den
      < (2 : ℚ) ^ (floorLog2 b.num.natAbs b.den + 1) :=
    lt_of_le_of_lt (le_trans a1 h) b2
  have := (zpow_lt_zpow_iff_right₀ (by norm_num : (1 : ℚ) < 2)).mp hlt
  unfold ulpExponent
  exact max_le_max (by omega) (le_refl _)

theorem two_zpow_split (e : ℤ) (p : ℕ) :
    (2 : ℚ) ^ (e + (p : ℤ)) = (((2 : ℤ) ^ p : ℤ) : ℚ) * (2 : ℚ) ^ e := by
  rw [zpow_add₀ (by norm_num : (2 : ℚ) ≠ 0), zpow_natCast]
  push_cast
  ring

theorem roundTo_le_top (fmt : Format) (q : ℚ) (hq : q ≠ 0) :
    roundTo fmt q ≤ (2 : ℚ) ^ (ulpExponent fmt q + (fmt.prec : ℤ)) ∧
    -(2 : ℚ) ^ (ulpExponent fmt q + (fmt.prec : ℤ)) ≤ roundTo fmt q := by
  have hpos : (0 : ℚ) < (2 : ℚ) ^ ulpExponent fmt q := zpow_pos (by norm_num) _
  have habs := abs_lt_top fmt q hq
  rw [two_zpow_split] at habs ⊢
  rw [roundTo_of_ne fmt q hq]
  obtain ⟨h1, h2⟩ := abs_lt.mp habs
  constructor
  · refine mul_le_mul_of_nonneg_right ?_ (le_of_lt hpos)
    have : rne (q / (2 : ℚ) ^ ulpExponent fmt q) ≤ (2 : ℤ) ^ fmt.prec :=
      rne_le_of_le _ _ (by rw [div_le_iff₀ hpos]; exact le_of_lt h2)
    exact_mod_cast this
  · rw [← neg_mul]
    refine mul_le_mul_of_nonneg_right ?_ (le_of_lt hpos)
    have : -((2 : ℤ) ^ fmt.prec) ≤ rne (q / (2 : ℚ) ^ ulpExponent fmt q) :=
      le_rne_of_le _ _ (by
        rw [le_div_iff₀ hpos]
        push_cast at h1 ⊢
        linarith)
    exact_mod_cast this

theorem roundTo_ge_bottom (fmt : Format) (hp : 1 ≤ fmt.prec) (q : ℚ) (hq : 0 < q)
    (he : fmt.emin < ulpExponent fmt q) :
    (2 : ℚ) ^ (ulpExponent fmt q + (fmt.prec : ℤ) - 1) ≤ roundTo fmt q := by
  have hpos : (0 : ℚ) < (2 : ℚ) ^ ulpExponent fmt q := zpow_pos (by norm_num) _
  have hb := le_abs_of_above fmt q (ne_of_gt hq) he
  rw [abs_of_pos hq] at hb
  have e : ulpExponent fmt q + (fmt.prec : ℤ) - 1
      = ulpExponent fmt q + ((fmt.prec - 1 : ℕ) : ℤ) := by omega
  rw [e, two_zpow_split] at hb ⊢
  rw [roundTo_of_ne fmt q (ne_of_gt hq)]
  refine mul_le_mul_of_nonneg_right ?_ (le_of_lt hpos)
  have : (2 : ℤ) ^ (fmt.prec - 1) ≤ rne (q / (2 : ℚ) ^ ulpExponent fmt q) :=
    le_rne_of_le _ _ (by rw [le_div_iff₀ hpos]; exact hb)
  exact_mod_cast this

theorem roundTo_le_bottom (fmt : Format) (hp : 1 ≤ fmt.prec) (q : ℚ) (hq : q < 0)
    (he : fmt.emin < ulpExponent fmt q) :
    roundTo fmt q ≤ -(2 : ℚ) ^ (ulpExponent fmt q + (fmt.prec : ℤ) - 1) := by
  have hpos : (0 : ℚ) < (2 : ℚ) ^ ulpExponent fmt q := zpow_pos (by norm_num) _
  have hb := le_abs_of_above fmt q (ne_of_lt hq) he
  rw [abs_of_neg hq] at hb
  have e : ulpExponent fmt q + (fmt.prec : ℤ) - 1
      = ulpExponent fmt q + ((fmt.prec - 1 : ℕ) : ℤ) := by omega
  rw [e, two_zpow_split] at hb ⊢
  rw [roundTo_of_ne fmt q (ne_of_lt hq), ← neg_mul]
  refine mul_le_mul_of_nonneg_right ?_ (le_of_lt hpos)
  have : rne (q / (2 : ℚ) ^ ulpExponent fmt q) ≤ -((2 : ℤ) ^ (fmt.prec - 1)) :=
    rne_le_of_le _ _ (by
      rw [div_le_iff₀ hpos]
      push_cast at hb ⊢
      linarith)
  exact_mod_cast this

theorem roundTo_nonneg (fmt : Format) (q : ℚ) (hq : 0 ≤ q) : 0 ≤ roundTo fmt q := by
  rcases eq_or_lt_of_le hq with h | h
  · rw [← h, roundTo_zero]
  · rw [roundTo_of_ne fmt q (ne_of_gt h)]
    have hpos : (0 : ℚ) < (2 : ℚ) ^ ulpExponent fmt q := zpow_pos (by norm_num) _
    refine mul_nonneg ?_ (le_of_lt hpos)
    have : (0 : ℤ) ≤ rne (q / (2 : ℚ) ^ ulpExponent fmt q) :=
      le_rne_of_le _ _ (by
        push_cast
        exact div_nonneg hq (le_of_lt hpos))
    exact_mod_cast this

theorem roundTo_nonpos (fmt : Format) (q : ℚ) (hq : q ≤ 0) : roundTo fmt q ≤ 0 := by
  rcases eq_or_lt_of_le hq with h | h
  · rw [h, roundTo_zero]
  · rw [roundTo_of_ne fmt q (ne_of_lt h)]
    have hpos : (0 : ℚ) < (2 : ℚ) ^ ulpExponent fmt q := zpow_pos (by norm_num) _
    refine mul_nonpos_of_nonpos_of_nonneg ?_ (le_of_lt hpos)
    have : rne (q / (2 : ℚ) ^ ulpExponent fmt q) ≤ (0 : ℤ) :=
      rne_le_of_le _ _ (by
        push_cast
        exact div_nonpos_of_nonpos_of_nonneg hq (le_of_lt hpos))
    exact_mod_cast this

theorem roundTo_same_exponent (fmt : Format) (a b : ℚ) (ha : a ≠ 0) (hb : b ≠ 0)
    (hab : a ≤ b) (he : ulpExponent fmt a = ulpExponent fmt b) :
    roundTo fmt a ≤ roundTo fmt b := by
  have hpos : (0 : ℚ) < (2 : ℚ) ^ ulpExponent fmt b := zpow_pos (by norm_num) _
  rw [roundTo_of_ne fmt a ha, roundTo_of_ne fmt b hb, he]
  refine mul_le_mul_of_nonneg_right ?_ (le_of_lt hpos)
  have : rne (a / (2 : ℚ) ^ ulpExponent fmt b) ≤ rne (b / (2 : ℚ) ^ ulpExponent fmt b) :=
    rne_mono _ _ (div_le_div_of_nonneg_right hab (le_of_lt hpos))
  exact_mod_cast this

theorem roundTo_mono (fmt : Format) (hp : 1 ≤ fmt.prec) (a b : ℚ) (hab : a ≤ b) :
    roundTo fmt a ≤ roundTo fmt b := by
  have emin_le : ∀ q, fmt.emin ≤ ulpExponent fmt q := fun q => le_max_right _ _
  rcases lt_trichotomy a 0 with ha | ha | ha
  · rcases lt_or_le b 0 with hb | hb
    · -- both negative
      have hexp : ulpExponent fmt b ≤ ulpExponent fmt a :=
        ulpExponent_mono fmt b a (ne_of_lt hb) (ne_of_lt ha) (by
          rw [abs_of_neg ha, abs_of_neg hb]
          linarith)
      rcases lt_or_eq_of_le hexp with hlt | heq
      · have h1 := roundTo_le_bottom fmt hp a ha (lt_of_le_of_lt (emin_le b) hlt)
        have h2 := (roundTo_le_top fmt b (ne_of_lt hb)).2
        have h3 : (2 : ℚ) ^ (ulpExponent fmt b + (fmt.prec : ℤ))
            ≤ (2 : ℚ) ^ (ulpExponent fmt a + (fmt.prec : ℤ) - 1) :=
          zpow_le_zpow_right₀ (by norm_num) (by omega)
        linarith
      · exact roundTo_same_exponent fmt a b (ne_of_lt ha) (ne_of_lt hb) hab heq.symm
    · exact le_trans (roundTo_nonpos fmt a (le_of_lt ha)) (roundTo_nonneg fmt b hb)
  · rw [ha, roundTo_zero]
    exact roundTo_nonneg fmt b (by rw [← ha]; exact hab)
  · have hb : 0 < b := lt_of_lt_of_le ha hab
    have hexp : ulpExponent fmt a ≤ ulpExponent fmt b :=
      ulpExponent_mono fmt a b (ne_of_gt ha) (ne_of_gt hb) (by
        rw [abs_of_pos ha, abs_of_pos hb]
        exact hab)
    rcases lt_or_eq_of_le hexp with hlt | heq
    · have h1 := roundTo_ge_bottom fmt hp b hb (lt_of_le_of_lt (emin_le a) hlt)
      have h2 := (roundTo_le_top fmt a (ne_of_gt ha)).1
      have h3 : (2 : ℚ) ^ (ulpExponent fmt a + (fmt.prec : ℤ))
          ≤ (2 : ℚ) ^ (ulpExponent fmt b + (fmt.prec : ℤ) - 1) :=
        zpow_le_zpow_right₀ (by norm_num) (by omega)
      linarith
    · exact roundTo_same_exponent fmt a b (ne_of_gt ha) (ne_of_gt hb) hab heq

/-! ## Layout in binary32 -/

namespace Binary32

theorem writeButton_at_b32 (v : Nat → Fp) (i : Nat) (c hi : Fp) :
    writeButton v i c hi (i * 8) = Fp.neg (f32 0.9) ∧ writeButton v i c hi (i * 8 + 1) = c ∧
    writeButton v i c hi (i * 8 + 2) = f32 0.9 ∧
    writeButton v i c hi (i * 8 + 5) = Fp.sub Format.binary32 c hi := by
  simp [writeButton, Function.update]

theorem writeButton_other_b32 (v : Nat → Fp) (i : Nat) (c hi : Fp) (k : Nat)
    (hk : k < i * 8 ∨ i * 8 + 8 ≤ k) : writeButton v i c hi k = v k := by
  have h0 : k ≠ i * 8 := by omega
  have h1 : k ≠ i * 8 + 1 := by omega
  have h2 : k ≠ i * 8 + 2 := by omega
  have h3 : k ≠ i * 8 + 3 := by omega
  have h4 : k ≠ i * 8 + 4 := by omega
  have h5 : k ≠ i * 8 + 5 := by omega
  have h6 : k ≠ i * 8 + 6 := by omega
  have h7 : k ≠ i * 8 + 7 := by omega
  simp [writeButton, Function.update, h0, h1, h2, h3, h4, h5, h6, h7]

theorem layoutLoop_below_b32 (hi : Fp) (r : Nat) :
    ∀ (i0 : Nat) (v : Nat → Fp) (c : Fp) (k : Nat), k < i0 * 8 →
      layoutLoop hi r i0 v c k = v k := by
  induction r with
  | zero => intro i0 v c k _; rfl
  | succ r ih =>
    intro i0 v c k hk
    rw [layoutLoop, ih (i0 + 1) _ _ k (by omega)]
    exact writeButton_other_b32 v i0 c hi k (Or.inl hk)

theorem layoutLoop_above_b32 (hi : Fp) (r : Nat) :
    ∀ (i0 : Nat) (v : Nat → Fp) (c : Fp) (k : Nat), (i0 + r) * 8 ≤ k →
      layoutLoop hi r i0 v c k = v k := by
  induction r with
  | zero => intro i0 v c k _; rfl
  | succ r ih =>
    intro i0 v c k hk
    rw [layoutLoop, ih (i0 + 1) _ _ k (by omega)]
    exact writeButton_other_b32 v i0 c hi k (Or.inr (by omega))

theorem layoutLoop_at_b32 (hi : Fp) (r : Nat) :
    ∀ (i0 : Nat) (v : Nat → Fp) (c : Fp) (d : Nat), d < r →
      layoutLoop hi r i0 v c ((i0 + d) * 8) = Fp.neg (f32 0.9) ∧
      layoutLoop hi r i0 v c ((i0 + d) * 8 + 1) = (decrementHeight hi)^[d] c ∧
      layoutLoop hi r i0 v c ((i0 + d) * 8 + 2) = f32 0.9 ∧
      layoutLoop hi r i0 v c ((i0 + d) * 8 + 5) =
        Fp.sub Format.binary32 ((decrementHeight hi)^[d] c) hi := by
  induction r with
  | zero => intro i0 v c d h; omega
  | succ r ih =>
    intro i0 v c d h
    cases d with
    | zero =>
      simp only [layoutLoop, Nat.add_zero, Function.iterate_zero, id_eq]
      rw [layoutLoop_below_b32 hi r (i0 + 1) _ _ (i0 * 8) (by omega),
        layoutLoop_below_b32 hi r (i0 + 1) _ _ (i0 * 8 + 1) (by omega),
        layoutLoop_below_b32 hi r (i0 + 1) _ _ (i0 * 8 + 2) (by omega),
        layoutLoop_below_b32 hi r (i0 + 1) _ _ (i0 * 8 + 5) (by omega)]
      exact writeButton_at_b32 v i0 c hi
    | succ d =>
      simp only [layoutLoop, Function.iterate_succ_apply]
      have := ih (i0 + 1) (writeButton v i0 c hi) (decrementHeight hi c) d (by omega)
      rw [show i0 + 1 + d = i0 + (d + 1) by omega] at this
      exact this

theorem onSurfaceChanged_region_b32 (n : Nat) (g : GameEngine) (width height : Int) (i : Nat)
    (hi : i < n) :
    (onSurfaceChanged n g width height).vertices_ (i * 8) = Fp.neg (f32 0.9) ∧
    (onSurfaceChanged n g width height).vertices_ (i * 8 + 1) =
      (decrementHeight (f32 0.25))^[i] (f32 0.93) ∧
    (onSurfaceChanged n g width height).vertices_ (i * 8 + 2) = f32 0.9 ∧
    (onSurfaceChanged n g width height).vertices_ (i * 8 + 5) =
      Fp.sub Format.binary32 ((decrementHeight (f32 0.25))^[i] (f32 0.93)) (f32 0.25) := by
  have h := layoutLoop_at_b32 (f32 0.25) n 0 g.vertices_ (f32 0.93) i hi
  rw [Nat.zero_add] at h
  exact h

theorem row_tops :
    (decrementHeight (f32 0.25))^[0] (f32 0.93) = Fp.finite (15602811 / 16777216) ∧
    (decrementHeight (f32 0.25))^[1] (f32 0.93) = Fp.finite (5284823 / 8388608) ∧
    (decrementHeight (f32 0.25))^[2] (f32 0.93) = Fp.finite (5536481 / 16777216) ∧
    (decrementHeight (f32 0.25))^[3] (f32 0.93) = Fp.finite (8053059 / 268435456) ∧
    (decrementHeight (f32 0.25))^[4] (f32 0.93) = Fp.finite (-9059697 / 33554432) ∧
    (decrementHeight (f32 0.25))^[5] (f32 0.93) = Fp.finite (-9563013 / 16777216) := by
  decide!

theorem row_bottoms :
    Fp.sub Format.binary32 (Fp.finite (15602811 / 16777216)) (f32 0.25)
      = Fp.finite (11408507 / 16777216) ∧
    Fp.sub Format.binary32 (Fp.finite (5284823 / 8388608)) (f32 0.25)
      = Fp.finite (3187671 / 8388608) ∧
    Fp.sub Format.binary32 (Fp.finite (5536481 / 16777216)) (f32 0.25)
      = Fp.finite (1342177 / 16777216) ∧
    Fp.sub Format.binary32 (Fp.finite (8053059 / 268435456)) (f32 0.25)
      = Fp.finite (-14763951 / 67108864) ∧
    Fp.sub Format.binary32 (Fp.finite (-9059697 / 33554432)) (f32 0.25)
      = Fp.finite (-1090519 / 2097152) ∧
    Fp.sub Format.binary32 (Fp.finite (-9563013 / 16777216)) (f32 0.25)
      = Fp.finite (-13757317 / 16777216) := by
  decide!

/-- The stored top and bottom of the first six rows. -/
theorem stored_rows (n : Nat) (g : GameEngine) (width height : Int) (i : Nat)
    (hi : i < n) (h6 : i < 6) :
    ∃ a b : ℚ,
      (onSurfaceChanged n g width height).vertices_ (i * 8 + 1) = Fp.finite a ∧
      (onSurfaceChanged n g width height).vertices_ (i * 8 + 5) = Fp.finite b ∧
      |a - (0.93 - 0.3 * (i : ℚ))| ≤ 1 / 10000000 ∧
      |b - (0.93 - 0.3 * (i : ℚ) - 0.25)| ≤ 1 / 10000000 ∧
      b < a ∧ (i + 1 < 6 → 0.93 - 0.3 * ((i : ℚ) + 1) + 1 / 10000000 < b) := by
  obtain ⟨-, h1, -, h5⟩ := onSurfaceChanged_region_b32 n g width height i hi
  obtain ⟨t0, t1, t2, t3, t4, t5⟩ := row_tops
  obtain ⟨b0, b1, b2, b3, b4, b5⟩ := row_bottoms
  rw [h1, h5]
  interval_cases i
  · rw [t0, b0]; exact ⟨_, _, rfl, rfl, by norm_num [abs_le], by norm_num [abs_le], by norm_num, by norm_num⟩
  · rw [t1, b1]; exact ⟨_, _, rfl, rfl, by norm_num [abs_le], by norm_num [abs_le], by norm_num, by norm_num⟩
  · rw [t2, b2]; exact ⟨_, _, rfl, rfl, by norm_num [abs_le], by norm_num [abs_le], by norm_num, by norm_num⟩
  · rw [t3, b3]; exact ⟨_, _, rfl, rfl, by norm_num [abs_le], by norm_num [abs_le], by norm_num, by norm_num⟩
  · rw [t4, b4]; exact ⟨_, _, rfl, rfl, by norm_num [abs_le], by norm_num [abs_le], by norm_num, by norm_num⟩
  · rw [t5, b5]; exact ⟨_, _, rfl, rfl, by norm_num [abs_le], by norm_num [abs_le], by norm_num, by norm_num⟩

theorem onSurfaceChanged_descending_b32 (n : Nat) (g : GameEngine) (width height : Int)
    (hn : n ≤ 6) (i j : Nat) (hij : i < j) (hj : j < n) :
    Fp.lt ((onSurfaceChanged n g width height).vertices_ (j * 8 + 1))
      ((onSurfaceChanged n g width height).vertices_ (i * 8 + 5)) := by
  obtain ⟨a1, b1, -, e2, -, h2, -, h4⟩ := stored_rows n g width height i (by omega) (by omega)
  obtain ⟨a2, b2, e3, -, h5, -, -, -⟩ := stored_rows n g width height j hj (by omega)
  rw [e2, e3]
  simp only [Fp.lt]
  have hb := h4 (by omega)
  have hq : (i : ℚ) + 1 ≤ (j : ℚ) := by exact_mod_cast hij
  have := (abs_le.mp h5).2
  linarith

/-- C3, as stated, fails: with six rows the stored `max_y` of region 3 is
8053059 / 2^28 = 0.0299999826..., not `0.93 - 0.3 * 3`, and the stored `min_x` of region 0 is
-7549747 / 2^23, not `-0.9`. -/
theorem stored_bounds_differ :
    ((onSurfaceChanged 6 sampleEngine 768 1024).vertices_ (3 * 8 + 1)
        = Fp.finite (8053059 / 268435456) ∧
      (8053059 / 268435456 : ℚ) ≠ 0.93 - 0.3 * 3) ∧
    ((onSurfaceChanged 6 sampleEngine 768 1024).vertices_ (0 * 8)
        = Fp.finite (-7549747 / 8388608) ∧
      (-7549747 / 8388608 : ℚ) ≠ -0.9) := by
  refine ⟨⟨?_, by norm_num⟩, ?_, by norm_num⟩
  · rw [(onSurfaceChanged_region_b32 6 sampleEngine 768 1024 3 (by decide)).2.1]
    exact row_tops.2.2.2.1
  · rw [(onSurfaceChanged_region_b32 6 sampleEngine 768 1024 0 (by decide)).1]
    decide!

/-- C3 amended: for every row count `kNumberOfButtons` and every width and height, the
layout loop of `onSurfaceChanged` writes exactly the slots of that many regions; region `i`
has `min_x = -0.9f`, `max_x = 0.9f` (the binary32 values ∓7549747 / 2^23), `max_y` equal to
`0.93f` decremented `i` times by `1.2 * 0.25f` (each decrement computed in `double` and
stored as `float`) and `min_y` equal to the binary32 difference of `max_y` and `0.25f`, so
all regions cover the same width; for the first six rows `max_y` and `min_y` are finite and
within `10^-7` of `0.93 - 0.3 * i` and `0.68 - 0.3 * i`; with at most six rows region `j`
lies strictly below region `i` for `i < j`; and the geometry is the same for every width and
height. -/
theorem layout_regions (n : Nat) (g : GameEngine) (width height : Int) :
    (∀ i, i < n →
      (onSurfaceChanged n g width height).vertices_ (i * 8) = Fp.neg (f32 0.9) ∧
      (onSurfaceChanged n g width height).vertices_ (i * 8 + 2) = f32 0.9 ∧
      (onSurfaceChanged n g width height).vertices_ (i * 8 + 1) =
        (decrementHeight (f32 0.25))^[i] (f32 0.93) ∧
      (onSurfaceChanged n g width height).vertices_ (i * 8 + 5) =
        Fp.sub Format.binary32 ((onSurfaceChanged n g width height).vertices_ (i * 8 + 1))
          (f32 0.25)) ∧
    (Fp.neg (f32 0.9) = Fp.finite (-7549747 / 8388608) ∧
      f32 0.9 = Fp.finite (7549747 / 8388608)) ∧
    (∀ i, i < n → i < 6 →
      ∃ a b : ℚ,
        (onSurfaceChanged n g width height).vertices_ (i * 8 + 1) = Fp.finite a ∧
        (onSurfaceChanged n g width height).vertices_ (i * 8 + 5) = Fp.finite b ∧
        |a - (0.93 - 0.3 * (i : ℚ))| ≤ 1 / 10000000 ∧
        |b - (0.93 - 0.3 * (i : ℚ) - 0.25)| ≤ 1 / 10000000) ∧
    (n ≤ 6 → ∀ i j, i < j → j < n →
      Fp.lt ((onSurfaceChanged n g width height).vertices_ (j * 8 + 1))
        ((onSurfaceChanged n g width height).vertices_ (i * 8 + 5))) ∧
    (∀ k, n * 8 ≤ k → (onSurfaceChanged n g width height).vertices_ k = g.vertices_ k) ∧
    (∀ width2 height2 : Int,
      (onSurfaceChanged n g width2 height2).vertices_ =
        (onSurfaceChanged n g width height).vertices_) := by
  refine ⟨?_, by decide!, ?_, ?_, ?_, ?_⟩
  · intro i hi
    obtain ⟨a, b, c, d⟩ := onSurfaceChanged_region_b32 n g width height i hi
    exact ⟨a, c, b, by rw [d, b]⟩
  · intro i hi h6
    obtain ⟨a, b, e1, e2, h1, h2, -, -⟩ := stored_rows n g width height i hi h6
    exact ⟨a, b, e1, e2, h1, h2⟩
  · intro hn i j hij hj
    exact onSurfaceChanged_descending_b32 n g width height hn i j hij hj
  · intro k hk
    simp only [onSurfaceChanged]
    exact layoutLoop_above_b32 (f32 0.25) n 0 g.vertices_ (f32 0.93) k (by omega)
  · intro width2 height2
    rfl

/-- Region 3 of a six-button layout on a 768 x 1024 surface, and its position below
region 1. -/
theorem layout_regions_witness :
    ((onSurfaceChanged 6 sampleEngine 768 1024).vertices_ (3 * 8) = Fp.neg (f32 0.9) ∧
      (onSurfaceChanged 6 sampleEngine 768 1024).vertices_ (3 * 8 + 2) = f32 0.9 ∧
      (onSurfaceChanged 6 sampleEngine 768 1024).vertices_ (3 * 8 + 1) =
        (decrementHeight (f32 0.25))^[3] (f32 0.93) ∧
      (onSurfaceChanged 6 sampleEngine 768 1024).vertices_ (3 * 8 + 5) =
        Fp.sub Format.binary32 ((onSurfaceChanged 6 sampleEngine 768 1024).vertices_ (3 * 8 + 1))
          (f32 0.25)) ∧
    Fp.lt ((onSurfaceChanged 6 sampleEngine 768 1024).vertices_ (3 * 8 + 1))
      ((onSurfaceChanged 6 sampleEngine 768 1024).vertices_ (1 * 8 + 5)) :=
  ⟨(layout_regions 6 sampleEngine 768 1024).1 3 (by decide),
   (layout_regions 6 sampleEngine 768 1024).2.2.2.1 (by decide) 1 3 (by decide) (by decide)⟩

/-! ## Hit test in binary32 -/

theorem Fp_le_le_lt_absurd (a b c : Fp) (h1 : Fp.le a b) (h2 : Fp.le b c) (h3 : Fp.lt c a) :
    False := by
  cases a <;> cases b <;> cases c <;> simp only [Fp.le, Fp.lt] at h1 h2 h3
  · linarith
  all_goals simp_all

theorem scanLoop_spec_b32 (v : Nat → Fp) (vx vy : Fp) (r : Nat) :
    ∀ i0 : Nat,
      (scanLoop v vx vy r i0 = -1 ∧ ∀ j, i0 ≤ j → j < i0 + r → ¬ inButton v j vx vy) ∨
      (∃ j : Nat, i0 ≤ j ∧ j < i0 + r ∧ scanLoop v vx vy r i0 = (j : Int) ∧
        inButton v j vx vy ∧ ∀ k, i0 ≤ k → k < j → ¬ inButton v k vx vy) := by
  induction r with
  | zero =>
    intro i0
    left
    exact ⟨rfl, fun j h1 h2 => by omega⟩
  | succ r ih =>
    intro i0
    by_cases hc : inButton v i0 vx vy
    · right
      refine ⟨i0, le_refl _, by omega, by simp [scanLoop, hc], hc, fun k h1 h2 => by omega⟩
    · have hs : scanLoop v vx vy (r + 1) i0 = scanLoop v vx vy r (i0 + 1) := by
        simp [scanLoop, hc]
      rcases ih (i0 + 1) with ⟨h1, h2⟩ | ⟨j, h1, h2, h3, h4, h5⟩
      · left
        refine ⟨by rw [hs, h1], fun j hj1 hj2 => ?_⟩
        rcases Nat.eq_or_lt_of_le hj1 with e | e
        · subst e; exact hc
        · exact h2 j (by omega) (by omega)
      · right
        refine ⟨j, by omega, by omega, by rw [hs, h3], h4, fun k hk1 hk2 => ?_⟩
        rcases Nat.eq_or_lt_of_le hk1 with e | e
        · subst e; exact hc
        · exact h5 k (by omega) hk2

theorem hitTest_cases_b32 (n : Nat) (g : GameEngine) (x y : Fp) :
    (hitTest n g x y = -1 ∧
      ∀ j, j < n → ¬ inButton g.vertices_ j (viewport_x g x) (viewport_y g y)) ∨
    (∃ j : Nat, j < n ∧ hitTest n g x y = (j : Int) ∧
      inButton g.vertices_ j (viewport_x g x) (viewport_y g y) ∧
      ∀ k, k < j → ¬ inButton g.vertices_ k (viewport_x g x) (viewport_y g y)) := by
  rcases scanLoop_spec_b32 g.vertices_ (viewport_x g x) (viewport_y g y) n 0
    with ⟨h1, h2⟩ | ⟨j, -, h2, h3, h4, h5⟩
  · left
    exact ⟨h1, fun j hj => h2 j (Nat.zero_le _) (by omega)⟩
  · right
    exact ⟨j, by omega, h3, h4, fun k hk => h5 k (Nat.zero_le _) hk⟩

theorem inButton_unique_b32 (n : Nat) (g : GameEngine) (width height : Int) (hn : n ≤ 6)
    (vx vy : Fp) (i j : Nat) (hi : i < n) (hj : j < n)
    (h1 : inButton (onSurfaceChanged n g width height).vertices_ i vx vy)
    (h2 : inButton (onSurfaceChanged n g width height).vertices_ j vx vy) : i = j := by
  have L := onSurfaceChanged_descending_b32 n g width height hn
  rcases Nat.lt_trichotomy i j with h | h | h
  · obtain ⟨-, -, -, a⟩ := h1
    obtain ⟨-, -, b, -⟩ := h2
    exact absurd (Fp_le_le_lt_absurd _ _ _ a b (L i j h hj)) id
  · exact h
  · obtain ⟨-, -, b, -⟩ := h1
    obtain ⟨-, -, -, a⟩ := h2
    exact absurd (Fp_le_le_lt_absurd _ _ _ a b (L j i h hi)) id

/-- C1, as stated, fails: with six buttons on a 100 x 100 surface the tap (50, 61) has
`1 - 2 * 61 / 100 = -0.22`, and the point `(0, -0.22)` lies within the stored bounds of
region 3; but `onTap` computes `viewport_y = -922747 / 2^22`, below the stored `min_y` of
region 3, and the hit test returns `-1`. -/
theorem tap_61_misses :
    hitTest 6 (onSurfaceChanged 6 sampleEngine 100 100) (Fp.finite 50) (Fp.finite 61) = -1 ∧
    viewport_x (onSurfaceChanged 6 sampleEngine 100 100) (Fp.finite 50) = Fp.finite 0 ∧
    viewport_y (onSurfaceChanged 6 sampleEngine 100 100) (Fp.finite 61)
      = Fp.finite (-922747 / 4194304) ∧
    (-922747 / 4194304 : ℚ) ≠ 1 - 2 * 61 / 100 ∧
    inButton (onSurfaceChanged 6 sampleEngine 100 100).vertices_ 3
      (Fp.finite (1 - 2 * (100 - 50) / 100)) (Fp.finite (1 - 2 * 61 / 100)) := by
  refine ⟨by decide!, by decide!, by decide!, by norm_num, by decide!⟩

/-- C1 amended: for every surface with `width > 0` and `height > 0` and every tap `(x, y)`,
after `onSurfaceChanged` the hit test of `onTap` computes `nx` and `ny` in binary32, every
operation of `1 - (((width - x) * 2) / width)` and `1 - ((y * 2) / height)` rounded to
nearest even; its result is button `i` exactly when `i < kNumberOfButtons`, region `i`
contains the computed `(nx, ny)` by the binary32 comparisons with the stored bounds, and no
region of smaller index does; it is `-1` exactly when no region contains the computed point;
and with at most six buttons at most one region contains a point, so that the result is `i`
exactly when region `i` contains the computed point. -/
theorem hit_test_characterisation (n : Nat) (g : GameEngine) (width height : Int)
    (x y : Fp) (_hw : 0 < width) (_hh : 0 < height) :
    viewport_x (onSurfaceChanged n g width height) x
      = Fp.sub Format.binary32 (Fp.ofInt Format.binary32 1)
          (Fp.div Format.binary32
            (Fp.mul Format.binary32
              (Fp.sub Format.binary32 (Fp.ofInt Format.binary32 width) x)
              (Fp.ofInt Format.binary32 2))
            (Fp.ofInt Format.binary32 width)) ∧
    viewport_y (onSurfaceChanged n g width height) y
      = Fp.sub Format.binary32 (Fp.ofInt Format.binary32 1)
          (Fp.div Format.binary32
            (Fp.mul Format.binary32 y (Fp.ofInt Format.binary32 2))
            (Fp.ofInt Format.binary32 height)) ∧
    (∀ i : Nat, hitTest n (onSurfaceChanged n g width height) x y = (i : Int) ↔
      i < n ∧
        inButton (onSurfaceChanged n g width height).vertices_ i
          (viewport_x (onSurfaceChanged n g width height) x)
          (viewport_y (onSurfaceChanged n g width height) y) ∧
        ∀ k, k < i →
          ¬ inButton (onSurfaceChanged n g width height).vertices_ k
            (viewport_x (onSurfaceChanged n g width height) x)
            (viewport_y (onSurfaceChanged n g width height) y)) ∧
    (hitTest n (onSurfaceChanged n g width height) x y = -1 ↔
      ∀ i, i < n →
        ¬ inButton (onSurfaceChanged n g width height).vertices_ i
          (viewport_x (onSurfaceChanged n g width height) x)
          (viewport_y (onSurfaceChanged n g width height) y)) ∧
    (n ≤ 6 →
      (∀ (vx vy : Fp) (i j : Nat), i < n → j < n →
        inButton (onSurfaceChanged n g width height).vertices_ i vx vy →
        inButton (onSurfaceChanged n g width height).vertices_ j vx vy → i = j) ∧
      (∀ i : Nat, hitTest n (onSurfaceChanged n g width height) x y = (i : Int) ↔
        i < n ∧
          inButton (onSurfaceChanged n g width height).vertices_ i
            (viewport_x (onSurfaceChanged n g width height) x)
            (viewport_y (onSurfaceChanged n g width height) y))) := by
  have hc := hitTest_cases_b32 n (onSurfaceChanged n g width height) x y
  refine ⟨rfl, rfl, ?_, ?_, ?_⟩
  · intro i
    rcases hc with ⟨h1, h2⟩ | ⟨j, h1, h2, h3, h4⟩
    · constructor
      · intro h
        rw [h1] at h
        omega
      · rintro ⟨hi, hin, -⟩
        exact absurd hin (h2 i hi)
    · constructor
      · intro h
        rw [h2] at h
        have : j = i := by exact_mod_cast h
        subst this
        exact ⟨h1, h3, h4⟩
      · rintro ⟨hi, hin, hmin⟩
        rw [h2]
        rcases Nat.lt_trichotomy i j with h | h | h
        · exact absurd hin (h4 i h)
        · rw [h]
        · exact absurd h3 (hmin j h)
  · rcases hc with ⟨h1, h2⟩ | ⟨j, h1, h2, h3, -⟩
    · exact ⟨fun _ => h2, fun _ => h1⟩
    · constructor
      · intro h
        rw [h2] at h
        omega
      · intro h
        exact absurd h3 (h j h1)
  · intro hn
    refine ⟨fun vx vy i j hi hj h1 h2 =>
      inButton_unique_b32 n g width height hn vx vy i j hi hj h1 h2, ?_⟩
    intro i
    rcases hc with ⟨h1, h2⟩ | ⟨j, h1, h2, h3, -⟩
    · constructor
      · intro h
        rw [h1] at h
        omega
      · rintro ⟨hi, hin⟩
        exact absurd hin (h2 i hi)
    · constructor
      · intro h
        rw [h2] at h
        have : j = i := by exact_mod_cast h
        subst this
        exact ⟨h1, h3⟩
      · rintro ⟨hi, hin⟩
        rw [h2, inButton_unique_b32 n g width height hn _ _ i j hi h1 hin h3]

/-- The two taps named with C1: on a 768 x 1024 surface the tap (384, 98) maps to
(0, 0.80859375) and resolves to button 0; on a 100 x 100 surface the tap (0, 0) maps to
(-1, 1) and hits no button. -/
theorem hit_test_characterisation_witness :
    (viewport_x (onSurfaceChanged 6 sampleEngine 768 1024) (Fp.finite 384) = Fp.finite 0 ∧
      viewport_y (onSurfaceChanged 6 sampleEngine 768 1024) (Fp.finite 98)
        = Fp.finite 0.80859375 ∧
      hitTest 6 (onSurfaceChanged 6 sampleEngine 768 1024) (Fp.finite 384) (Fp.finite 98)
        = ((0 : Nat) : Int)) ∧
    (viewport_x (onSurfaceChanged 6 sampleEngine 100 100) (Fp.finite 0) = Fp.finite (-1) ∧
      viewport_y (onSurfaceChanged 6 sampleEngine 100 100) (Fp.finite 0) = Fp.finite 1 ∧
      hitTest 6 (onSurfaceChanged 6 sampleEngine 100 100) (Fp.finite 0) (Fp.finite 0)
        = -1) := by
  have A := hit_test_characterisation 6 sampleEngine 768 1024 (Fp.finite 384) (Fp.finite 98)
    (by decide) (by decide)
  have B := hit_test_characterisation 6 sampleEngine 100 100 (Fp.finite 0) (Fp.finite 0)
    (by decide) (by decide)
  refine ⟨⟨?_, ?_, ?_⟩, ?_, ?_, ?_⟩
  · rw [A.1]; decide!
  · rw [A.2.1]; decide!
  · exact ((A.2.2.2.2 (by decide)).2 0).mpr ⟨by decide, by decide!⟩
  · rw [B.1]; decide!
  · rw [B.2.1]; decide!
  · exact B.2.2.2.1.mpr (by decide!)

/-! ## Animation steps in binary32 -/

theorem updateIntensity_value (g : GameEngine) :
    (updateIntensity g).bg_intensity_ =
      Fp.add Format.binary32 g.bg_intensity_
        (if g.bg_intensity_increasing_ = true then f32 0.0025 else Fp.neg (f32 0.0025)) := by
  unfold updateIntensity
  dsimp only
  split_ifs <;> rfl

theorem round_of_abs_le_one (q : ℚ) (h : |roundTo Format.binary32 q| ≤ 1) :
    Fp.round Format.binary32 q = Fp.finite (roundTo Format.binary32 q) := by
  unfold Fp.round
  dsimp only
  rw [if_neg]
  intro h2
  have h3 : (1 : ℚ) < (2 : ℚ) ^ Format.binary32.emax := by
    simp only [Format.binary32]
    norm_num
  linarith

/-- C6, as stated, fails: from value `0.0` with the direction decreasing one intensity
update yields -5368709 / 2^31, below `0.0`; and from value 13421772 / 2^25 (the binary32
value just below `0.4`) with the direction increasing it yields 6752829 / 2^24, above
`0.4`. -/
theorem tick_leaves_range :
    ((updateIntensity (engineOf (Fp.finite 0, false))).bg_intensity_
        = Fp.finite (-5368709 / 2147483648) ∧
      (-5368709 / 2147483648 : ℚ) < 0.0) ∧
    ((0.0 : ℚ) ≤ 13421772 / 33554432 ∧ (13421772 / 33554432 : ℚ) ≤ 0.4 ∧
      (updateIntensity (engineOf (Fp.finite (13421772 / 33554432), true))).bg_intensity_
        = Fp.finite (6752829 / 16777216) ∧
      (0.4 : ℚ) < 6752829 / 16777216) := by
  refine ⟨⟨by decide!, by norm_num⟩, by norm_num, by norm_num, by decide!, by norm_num⟩

/-- C6 amended: for every state whose value is finite and lies in `[0.0, 0.4f]` (which
contains `[0.0, 0.4]`), one intensity update of `onUpdate` yields a finite value between
`-0.0025f = -5368709 / 2^31` and 13505659 / 2^25 (the binary32 sum of `0.4f` and `0.0025f`),
so between `-0.0025` and `0.40250001`; the value is again in `[0.0, 0.4f]` when the state is
decreasing with value at least `0.0025f`, and when it is increasing with the exact sum of
the value and `0.0025f` at most `0.4f`. -/
theorem tick_range (g : GameEngine) (q : ℚ) (hq : g.bg_intensity_ = Fp.finite q)
    (h0 : 0 ≤ q) (h1 : q ≤ 13421773 / 33554432) :
    ∃ r : ℚ, (updateIntensity g).bg_intensity_ = Fp.finite r ∧
      -(5368709 / 2147483648) ≤ r ∧ r ≤ 13505659 / 33554432 ∧
      -0.0025 ≤ r ∧ r ≤ 0.40250001 ∧
      (g.bg_intensity_increasing_ = false → 5368709 / 2147483648 ≤ q →
        0 ≤ r ∧ r ≤ 13421773 / 33554432) ∧
      (g.bg_intensity_increasing_ = true → q + 5368709 / 2147483648 ≤ 13421773 / 33554432 →
        0 ≤ r ∧ r ≤ 13421773 / 33554432) := by
  have ec : f32 0.0025 = Fp.finite (5368709 / 2147483648) := by decide!
  have mono := roundTo_mono Format.binary32 (by decide)
  have r1 : roundTo Format.binary32 (0 + 5368709 / 2147483648) = 5368709 / 2147483648 := by
    decide!
  have r2 : roundTo Format.binary32 (13421773 / 33554432 + 5368709 / 2147483648)
      = 13505659 / 33554432 := by decide!
  have r3 : roundTo Format.binary32 (0 + -(5368709 / 2147483648))
      = -(5368709 / 2147483648) := by decide!
  have r4 : roundTo Format.binary32 (13421773 / 33554432 + -(5368709 / 2147483648))
      = 13337887 / 33554432 := by decide!
  have r5 : roundTo Format.binary32 (13421773 / 33554432) = 13421773 / 33554432 := by
    decide!
  cases hd : g.bg_intensity_increasing_ with
  | true =>
    have lo := mono (0 + 5368709 / 2147483648) (q + 5368709 / 2147483648) (by linarith)
    have hi := mono (q + 5368709 / 2147483648)
      (13421773 / 33554432 + 5368709 / 2147483648) (by linarith)
    rw [r1] at lo
    rw [r2] at hi
    have hfin := round_of_abs_le_one (q + 5368709 / 2147483648) (by
      rw [abs_le]
      constructor <;> linarith)
    refine ⟨roundTo Format.binary32 (q + 5368709 / 2147483648), ?_, by linarith, hi,
      by linarith, by linarith, fun h => by simp at h, fun _ hs => ?_⟩
    · rw [updateIntensity_value, hq, hd, if_pos rfl, ec]
      exact hfin
    · have hi2 := mono (q + 5368709 / 2147483648) (13421773 / 33554432) hs
      rw [r5] at hi2
      exact ⟨by linarith, hi2⟩
  | false =>
    have lo := mono (0 + -(5368709 / 2147483648)) (q + -(5368709 / 2147483648))
      (by linarith)
    have hi := mono (q + -(5368709 / 2147483648))
      (13421773 / 33554432 + -(5368709 / 2147483648)) (by linarith)
    rw [r3] at lo
    rw [r4] at hi
    have hfin := round_of_abs_le_one (q + -(5368709 / 2147483648)) (by
      rw [abs_le]
      constructor <;> linarith)
    refine ⟨roundTo Format.binary32 (q + -(5368709 / 2147483648)), ?_, lo, by linarith,
      by linarith, by linarith, fun _ hs => ?_, fun h => by simp at h⟩
    · rw [updateIntensity_value, hq, hd, if_neg (by simp), ec]
      exact hfin
    · have lo2 := roundTo_nonneg Format.binary32 (q + -(5368709 / 2147483648))
        (by linarith)
      exact ⟨lo2, by linarith⟩

/-- The state (0.0, increasing) steps inside `[0.0, 0.4f]`. -/
theorem tick_range_witness :
    ∃ r : ℚ, (updateIntensity sampleEngine).bg_intensity_ = Fp.finite r ∧
      0 ≤ r ∧ r ≤ 13421773 / 33554432 := by
  obtain ⟨r, e, -, -, -, -, -, h⟩ := tick_range sampleEngine 0 rfl (by norm_num) (by norm_num)
  exact ⟨r, e, h rfl (by norm_num)⟩

theorem intensity_after (g : GameEngine) (hv : g.bg_intensity_ = Fp.finite 0)
    (hd : g.bg_intensity_increasing_ = true) (n : Nat) :
    intensityOf (updateIntensity^[n] g) = tick^[n] (Fp.finite 0, true) := by
  rw [intensityOf_iterate]
  simp only [intensityOf, hv, hd]

theorem le_f32_zero_of_ge (v : Fp) (h1 : Fp.le v (f32 0.0)) : ¬ Fp.ge v (f32 0.4) := by
  have e0 : f32 0.0 = Fp.finite 0 := by decide!
  have e4 : f32 0.4 = Fp.finite (13421773 / 33554432) := by decide!
  rw [e0] at h1
  rw [e4]
  cases v with
  | finite q =>
    simp only [Fp.le, Fp.ge] at *
    intro h
    have : (0 : ℚ) < 13421773 / 33554432 := by norm_num
    linarith
  | inf s =>
    simp only [Fp.le, Fp.ge] at *
    simp [h1]
  | nan => simp [Fp.le] at h1

/-- C7, as stated, fails: from value `0.0`, increasing, one update stores
`5368709 / 2^31`, which is not `0.0025`; and from value `65536.0`, increasing, the update
leaves the value as it is. -/
theorem step_not_exact :
    ((updateIntensity sampleEngine).bg_intensity_ = Fp.finite (5368709 / 2147483648) ∧
      (5368709 / 2147483648 : ℚ) ≠ 0 + 0.0025) ∧
    ((updateIntensity (engineOf (Fp.finite 65536, true))).bg_intensity_ = Fp.finite 65536 ∧
      (65536 : ℚ) ≠ 65536 + 0.0025) := by
  refine ⟨⟨by decide!, by norm_num⟩, by decide!, by norm_num⟩

/-- C7 amended: for every state, one intensity update of `onUpdate` yields the binary32 sum
of the value and `0.0025f` when the direction is increasing, of the value and `-0.0025f`
otherwise (for a finite value: the exact sum with `5368709 / 2^31`, rounded to nearest
even); the new direction is decreasing when the new value is `>= 0.4f`, increasing when it
is `<= 0.0f`, and unchanged otherwise; the other fields are unchanged; and from value `0.0`,
increasing, the update yields `0.0025f = 5368709 / 2^31`, increasing. -/
theorem animator_step (g : GameEngine) :
    (g.bg_intensity_increasing_ = true →
      (updateIntensity g).bg_intensity_ =
        Fp.add Format.binary32 g.bg_intensity_ (f32 0.0025)) ∧
    (g.bg_intensity_increasing_ = false →
      (updateIntensity g).bg_intensity_ =
        Fp.add Format.binary32 g.bg_intensity_ (Fp.neg (f32 0.0025))) ∧
    (∀ q, g.bg_intensity_ = Fp.finite q →
      (updateIntensity g).bg_intensity_ =
        Fp.round Format.binary32
          (q + if g.bg_intensity_increasing_ = true then 5368709 / 2147483648
               else -(5368709 / 2147483648))) ∧
    (Fp.ge (updateIntensity g).bg_intensity_ (f32 0.4) →
      (updateIntensity g).bg_intensity_increasing_ = false) ∧
    (Fp.le (updateIntensity g).bg_intensity_ (f32 0.0) →
      (updateIntensity g).bg_intensity_increasing_ = true) ∧
    (¬ Fp.ge (updateIntensity g).bg_intensity_ (f32 0.4) →
      ¬ Fp.le (updateIntensity g).bg_intensity_ (f32 0.0) →
      (updateIntensity g).bg_intensity_increasing_ = g.bg_intensity_increasing_) ∧
    (g.bg_intensity_ = Fp.finite 0 → g.bg_intensity_increasing_ = true →
      (updateIntensity g).bg_intensity_ = Fp.finite (5368709 / 2147483648) ∧
      (updateIntensity g).bg_intensity_ = f32 0.0025 ∧
      (updateIntensity g).bg_intensity_increasing_ = true) ∧
    (updateIntensity g).width_ = g.width_ ∧ (updateIntensity g).height_ = g.height_ ∧
    (updateIntensity g).vertices_ = g.vertices_ := by
  have hval : (updateIntensity g).bg_intensity_ =
      Fp.add Format.binary32 g.bg_intensity_
        (if g.bg_intensity_increasing_ = true then f32 0.0025 else Fp.neg (f32 0.0025)) := by
    unfold updateIntensity
    dsimp only
    split_ifs <;> rfl
  have hdir : (updateIntensity g).bg_intensity_increasing_ =
      if Fp.ge (updateIntensity g).bg_intensity_ (f32 0.4) then false
      else if Fp.le (updateIntensity g).bg_intensity_ (f32 0.0) then true
      else g.bg_intensity_increasing_ := by
    rw [hval]
    unfold updateIntensity
    dsimp only
    split_ifs <;> rfl
  have ec : f32 0.0025 = Fp.finite (5368709 / 2147483648) := by decide!
  refine ⟨?_, ?_, ?_, ?_, ?_, ?_, ?_, ?_, ?_, ?_⟩
  · intro h
    rw [hval, if_pos h]
  · intro h
    rw [hval, if_neg (by simp [h])]
  · intro q hq
    rw [hval, hq, ec]
    split_ifs <;> rfl
  · intro h
    rw [hdir, if_pos h]
  · intro h
    rw [hdir, if_neg (le_f32_zero_of_ge _ h), if_pos h]
  · intro h1 h2
    rw [hdir, if_neg h1, if_neg h2]
  · intro h1 h2
    have e := intensityOf_updateIntensity g
    simp only [intensityOf, h1, h2, orbit_1, Prod.mk.injEq] at e
    exact ⟨e.1, by rw [e.1, ec], e.2⟩
  · unfold updateIntensity
    dsimp only
    split_ifs <;> rfl
  · unfold updateIntensity
    dsimp only
    split_ifs <;> rfl
  · unfold updateIntensity
    dsimp only
    split_ifs <;> rfl

/-- The step from value `0.0`, increasing. -/
theorem animator_step_witness :
    (updateIntensity sampleEngine).bg_intensity_ = Fp.finite (5368709 / 2147483648) ∧
      (updateIntensity sampleEngine).bg_intensity_ = f32 0.0025 ∧
      (updateIntensity sampleEngine).bg_intensity_increasing_ = true :=
  (animator_step sampleEngine).2.2.2.2.2.2.1 rfl rfl

theorem orbit_tail (n : Nat) (hn : 1 ≤ n) :
    ∃ q, (tick^[n] (Fp.finite 0, true)).1 = Fp.finite q ∧
      -5368669 / 2147483648 ≤ q ∧ q ≤ 13505649 / 33554432 ∧
      tick^[n] (Fp.finite 0, true) ≠ (Fp.finite 0, true) := by
  obtain ⟨k, hk, hc, e⟩ := orbit_reduce n
  have hk1 : 1 ≤ k := by omega
  obtain ⟨j, rfl⟩ : ∃ j, k = j + 1 := ⟨k - 1, by omega⟩
  have hP := ticksAll_spec _ 424 _ orbit_bounds j (by omega)
  rw [← orbit_1, ← Function.iterate_succ_apply, ← e] at hP
  simp only [Bool.and_eq_true, decide_eq_true_eq] at hP
  obtain ⟨⟨h1, h2⟩, h3⟩ := hP
  cases hs : (tick^[n] (Fp.finite 0, true)).1 with
  | finite q =>
    rw [hs] at h1 h2
    exact ⟨q, rfl, h1, h2, h3⟩
  | inf s =>
    rw [hs] at h1 h2
    simp only [Fp.le] at h1 h2
    rw [h1] at h2
    exact absurd h2 (by decide)
  | nan =>
    rw [hs] at h1
    simp only [Fp.le] at h1

/-- C4, as stated, fails: in binary32 the state after 160 updates from (0.0, increasing) is
(13421763 / 2^25, increasing), below `0.4` and still increasing, and the state after 320
updates is (5368729 / 2^30, decreasing), not (0.0, increasing). -/
theorem period_320_fails :
    (intensityOf (updateIntensity^[160] sampleEngine)
        = (Fp.finite (13421763 / 33554432), true) ∧
      (13421763 / 33554432 : ℚ) < 0.4) ∧
    (intensityOf (updateIntensity^[320] sampleEngine)
        = (Fp.finite (5368729 / 1073741824), false) ∧
      (5368729 / 1073741824 : ℚ) ≠ 0.0) := by
  refine ⟨⟨?_, by norm_num⟩, ?_, by norm_num⟩
  · rw [intensity_after sampleEngine rfl rfl, orbit_160]
  · rw [intensity_after sampleEngine rfl rfl, orbit_320]

/-- C4 amended: starting from (value 0.0, increasing) and applying the intensity update of
`onUpdate` repeatedly in binary32, the value stays below `0.4f` and the direction increasing
through 160 updates (value 13421763 / 2^25 after 160); after 161 updates the value is
13505649 / 2^25, above `0.4f`, and the direction is decreasing; it stays decreasing with a
positive value through 322 updates; after 323 updates the value is -5368669 / 2^31 and the
direction is increasing again; after 324 updates the state is (5 / 2^28, increasing). From
101 updates on the states repeat with period 324, and the state (0.0, increasing) is never
reached again. -/
theorem animator_period (g : GameEngine) (hv : g.bg_intensity_ = Fp.finite 0)
    (hd : g.bg_intensity_increasing_ = true) :
    (∀ k, k ≤ 160 →
      (updateIntensity^[k] g).bg_intensity_increasing_ = true ∧
      Fp.lt (updateIntensity^[k] g).bg_intensity_ (f32 0.4)) ∧
    intensityOf (updateIntensity^[160] g) = (Fp.finite (13421763 / 33554432), true) ∧
    intensityOf (updateIntensity^[161] g) = (Fp.finite (13505649 / 33554432), false) ∧
    Fp.lt (f32 0.4) (Fp.finite (13505649 / 33554432)) ∧
    (∀ k, 161 ≤ k → k ≤ 322 →
      (updateIntensity^[k] g).bg_intensity_increasing_ = false ∧
      Fp.lt (f32 0.0) (updateIntensity^[k] g).bg_intensity_) ∧
    intensityOf (updateIntensity^[323] g) = (Fp.finite (-5368669 / 2147483648), true) ∧
    intensityOf (updateIntensity^[324] g) = (Fp.finite (5 / 268435456), true) ∧
    (∀ n, 101 ≤ n →
      intensityOf (updateIntensity^[n + 324] g) = intensityOf (updateIntensity^[n] g)) ∧
    (∀ n, 1 ≤ n → intensityOf (updateIntensity^[n] g) ≠ (Fp.finite 0, true)) := by
  have key := intensity_after g hv hd
  refine ⟨?_, ?_, ?_, by decide!, ?_, ?_, ?_, ?_, ?_⟩
  · intro k hk
    have hP := ticksAll_spec _ 161 _ orbit_climb k (by omega)
    rw [← key k] at hP
    simpa only [intensityOf, Bool.and_eq_true, decide_eq_true_eq] using hP
  · rw [key, orbit_160]
  · rw [key, orbit_161]
  · intro k h1 h2
    obtain ⟨j, rfl⟩ : ∃ j, k = j + 161 := ⟨k - 161, by omega⟩
    have hP := ticksAll_spec _ 162 _ orbit_descent j (by omega)
    rw [← orbit_161, ← Function.iterate_add_apply, ← key (j + 161)] at hP
    simpa only [intensityOf, Bool.and_eq_true, Bool.not_eq_true', decide_eq_true_eq] using hP
  · rw [key, orbit_323]
  · rw [key, orbit_324]
  · intro n hn
    rw [key, key, orbit_periodic n hn]
  · intro n hn
    rw [key]
    exact (orbit_tail n hn).choose_spec.2.2.2

/-- The turning points of the engine with value 0.0, increasing. -/
theorem animator_period_witness :
    intensityOf (updateIntensity^[161] sampleEngine)
        = (Fp.finite (13505649 / 33554432), false) ∧
    intensityOf (updateIntensity^[323] sampleEngine)
        = (Fp.finite (-5368669 / 2147483648), true) ∧
    intensityOf (updateIntensity^[324] sampleEngine) = (Fp.finite (5 / 268435456), true) :=
  ⟨(animator_period sampleEngine rfl rfl).2.2.1,
   (animator_period sampleEngine rfl rfl).2.2.2.2.2.1,
   (animator_period sampleEngine rfl rfl).2.2.2.2.2.2.1⟩

/-- C5, as stated, fails: in binary32 the value after 161 updates from (0.0, increasing) is
13505649 / 2^25, above `0.4`, and the value after 323 updates is -5368669 / 2^31, below
`0.0`. -/
theorem bound_fails :
    ((updateIntensity^[161] sampleEngine).bg_intensity_ = Fp.finite (13505649 / 33554432) ∧
      (0.4 : ℚ) < 13505649 / 33554432) ∧
    ((updateIntensity^[323] sampleEngine).bg_intensity_
        = Fp.finite (-5368669 / 2147483648) ∧
      (-5368669 / 2147483648 : ℚ) < 0.0) := by
  have h1 := intensity_after sampleEngine rfl rfl 161
  have h2 := intensity_after sampleEngine rfl rfl 323
  rw [orbit_161] at h1
  rw [orbit_323] at h2
  simp only [intensityOf, Prod.mk.injEq] at h1 h2
  exact ⟨⟨h1.1, by norm_num⟩, h2.1, by norm_num⟩

/-- C5 amended: starting from (value 0.0, increasing), after every number `n` of intensity
updates of `onUpdate` in binary32 the value is finite and lies between -5368669 / 2^31 (the
value after 323 updates) and 13505649 / 2^25 (the value after 161 updates), so that
`-0.0025 <= value <= 0.4025`. -/
theorem animator_bounded (g : GameEngine) (hv : g.bg_intensity_ = Fp.finite 0)
    (hd : g.bg_intensity_increasing_ = true) (n : Nat) :
    ∃ q : ℚ, (updateIntensity^[n] g).bg_intensity_ = Fp.finite q ∧
      -5368669 / 2147483648 ≤ q ∧ q ≤ 13505649 / 33554432 ∧
      -0.0025 ≤ q ∧ q ≤ 0.4025 := by
  have key := intensity_after g hv hd n
  have hfst : (updateIntensity^[n] g).bg_intensity_ = (tick^[n] (Fp.finite 0, true)).1 := by
    rw [← key]
    rfl
  rw [hfst]
  rcases Nat.eq_zero_or_pos n with h0 | hpos
  · subst h0
    refine ⟨0, rfl, by norm_num, by norm_num, by norm_num, by norm_num⟩
  · obtain ⟨q, e, h1, h2, -⟩ := orbit_tail n hpos
    refine ⟨q, e, h1, h2, ?_, ?_⟩
    · have : (-0.0025 : ℚ) ≤ -5368669 / 2147483648 := by norm_num
      linarith
    · have : (13505649 / 33554432 : ℚ) ≤ 0.4025 := by norm_num
      linarith

/-- The bound after 1000 updates from the engine with value 0.0, increasing. -/
theorem animator_bounded_witness :
    ∃ q : ℚ, (updateIntensity^[1000] sampleEngine).bg_intensity_ = Fp.finite q ∧
      -5368669 / 2147483648 ≤ q ∧ q ≤ 13505649 / 33554432 ∧
      -0.0025 ≤ q ∧ q ≤ 0.4025 :=
  animator_bounded sampleEngine rfl rfl 1000

end Binary32
